import Mathlib

/-!
Shallow embedding of the libemf EMF codec (libemf/libemf.h) for verification.

The binary stream model follows `EMF::DATASTREAM`: on a little-endian host
`swap_` is false and every primitive is written in the format's little-endian
byte order, so a stream is modelled as a `List Nat` of bytes (each < 256).
Short reads and writes throw in the C++ code (the private `fread`/`fwrite`
wrappers of DATASTREAM); here they are `Except.error` values carrying the
same message strings.

Machine integers are modelled as `Nat`/`Int` with explicit `% 2^w` at the
points where the C++ performs wrapping unsigned arithmetic.
-/

namespace LibEMF

/-- Error message thrown by `DATASTREAM::fread` on a short read. -/
def streamReadErr : String := "Premature EOF on EMF stream"

/-- Error message thrown by `DATASTREAM::fwrite` on a short write. -/
def streamWriteErr : String := "error writing EMF stream"

/-! ### Primitive encoders (DATASTREAM `operator<<`, little-endian) -/

/-- Little-endian bytes of a BYTE (`operator<< (const BYTE&)`). -/
def encU8 (b : Nat) : List Nat := [b % 256]

/-- Little-endian bytes of a WORD (`operator<< (const WORD&)`). -/
def encU16 (w : Nat) : List Nat := [w % 256, w / 256 % 256]

/-- Little-endian bytes of a DWORD (`operator<< (const DWORD&)`). -/
def encU32 (d : Nat) : List Nat :=
  [d % 256, d / 256 % 256, d / 65536 % 256, d / 16777216 % 256]

/-- Little-endian bytes of a LONG / INT, two's complement
(`operator<< (const LONG&)` and `operator<< (const INT&)`). -/
def encI32 (l : Int) : List Nat := encU32 (l % 4294967296).toNat

/-- Little-endian bytes of an INT16 (`operator<< (const INT16&)`). -/
def encI16 (w : Int) : List Nat := encU16 (w % 65536).toNat

/-- Concatenated encoding of a DWORD array (`operator<< (const DWORDARRAY&)`). -/
def encU32List (ds : List Nat) : List Nat := ds.foldr (fun d acc => encU32 d ++ acc) []

/-- Concatenated encoding of a WCHAR string (`operator<< (const WCHARSTR&)`). -/
def encU16List (ws : List Nat) : List Nat := ws.foldr (fun w acc => encU16 w ++ acc) []

/-- Encoding of a CHAR string: raw bytes (`operator<< (const CHARSTR&)`). -/
def encByteList (bs : List Nat) : List Nat := bs.map (fun b => b % 256)

/-! ### Primitive decoders (DATASTREAM `operator>>`); a short stream is the
short-read error thrown by the `fread` wrapper. -/

/-- Read one byte (`operator>> (BYTE&)`). -/
def readU8 : List Nat → Except String (Nat × List Nat)
  | [] => .error streamReadErr
  | b :: s => .ok (b, s)

/-- Read a WORD (`operator>> (WORD&)`). -/
def readU16 : List Nat → Except String (Nat × List Nat)
  | b0 :: b1 :: s => .ok (b0 + 256 * b1, s)
  | _ => .error streamReadErr

/-- Read a DWORD (`operator>> (DWORD&)`). -/
def readU32 : List Nat → Except String (Nat × List Nat)
  | b0 :: b1 :: b2 :: b3 :: s => .ok (b0 + 256 * b1 + 65536 * b2 + 16777216 * b3, s)
  | _ => .error streamReadErr

/-- Reinterpret the low 32 bits of an unsigned value as a signed int
(the C cast from unsigned to `int`). -/
def toSigned32 (n : Nat) : Int :=
  if n % 4294967296 < 2147483648 then (n % 4294967296 : Int)
  else (n % 4294967296 : Int) - 4294967296

/-- Read a LONG / INT (`operator>> (LONG&)`, `operator>> (INT&)`). -/
def readI32 (s : List Nat) : Except String (Int × List Nat) :=
  match readU32 s with
  | .ok (n, s1) => .ok (toSigned32 n, s1)
  | .error e => .error e

/-- Reinterpret the low 16 bits of an unsigned value as a signed short. -/
def toSigned16 (n : Nat) : Int :=
  if n % 65536 < 32768 then (n % 65536 : Int) else (n % 65536 : Int) - 65536

/-- Read an INT16 (`operator>> (INT16&)`). -/
def readI16 (s : List Nat) : Except String (Int × List Nat) :=
  match readU16 s with
  | .ok (n, s1) => .ok (toSigned16 n, s1)
  | .error e => .error e

/-- Sequencing of reads: propagate the fatal stream error, otherwise continue
with the value and the rest of the stream. -/
def andThen (m : Except String (α × List Nat))
    (f : α → List Nat → Except String (β × List Nat)) :
    Except String (β × List Nat) :=
  match m with
  | .error e => .error e
  | .ok (a, s) => f a s

/-- Read `n` DWORDs (`operator>> (DWORDARRAY&)`). -/
def readU32List : Nat → List Nat → Except String (List Nat × List Nat)
  | 0, s => .ok ([], s)
  | n + 1, s =>
    andThen (readU32 s) fun d s1 =>
      andThen (readU32List n s1) fun ds s2 => .ok (d :: ds, s2)

/-- Read `n` WCHARs (`operator>> (WCHARSTR&)`). -/
def readU16List : Nat → List Nat → Except String (List Nat × List Nat)
  | 0, s => .ok ([], s)
  | n + 1, s =>
    andThen (readU16 s) fun w s1 =>
      andThen (readU16List n s1) fun ws s2 => .ok (w :: ws, s2)

/-- Read `n` raw bytes (`operator>> (CHARSTR&)`, a single `fread`). -/
def readByteList (n : Nat) (s : List Nat) : Except String (List Nat × List Nat) :=
  if n ≤ s.length then .ok (s.take n, s.drop n) else .error streamReadErr

/-! ### Geometry structures (POINTL, POINT16, RECTL, SIZEL) -/

/-- A POINTL: two LONGs. -/
structure POINTL where
  x : Int
  y : Int
deriving DecidableEq

/-- A POINT16: two INT16s. -/
structure POINT16 where
  x : Int
  y : Int
deriving DecidableEq

/-- A RECTL: four LONGs. -/
structure RECTL where
  left : Int
  top : Int
  right : Int
  bottom : Int
deriving DecidableEq

/-- A SIZEL: two LONGs. -/
structure SIZEL where
  cx : Int
  cy : Int
deriving DecidableEq

/-- Encoding of a POINTL (`operator<< (const POINTL&)`). -/
def encPOINTL (p : POINTL) : List Nat := encI32 p.x ++ encI32 p.y

/-- Encoding of a POINT16 (`operator<< (const POINT16&)`). -/
def encPOINT16 (p : POINT16) : List Nat := encI16 p.x ++ encI16 p.y

/-- Encoding of a RECTL (`operator<< (const RECTL&)`). -/
def encRECTL (r : RECTL) : List Nat :=
  encI32 r.left ++ encI32 r.top ++ encI32 r.right ++ encI32 r.bottom

/-- Encoding of a SIZEL (`operator<< (const SIZEL&)`). -/
def encSIZEL (z : SIZEL) : List Nat := encI32 z.cx ++ encI32 z.cy

/-- Concatenated encoding of a POINTL array (`operator<< (const POINTLARRAY&)`). -/
def encPOINTLList (ps : List POINTL) : List Nat :=
  ps.foldr (fun p acc => encPOINTL p ++ acc) []

/-- Concatenated encoding of a POINT16 array (`operator<< (const POINT16ARRAY&)`). -/
def encPOINT16List (ps : List POINT16) : List Nat :=
  ps.foldr (fun p acc => encPOINT16 p ++ acc) []

/-- Read a POINTL (`operator>> (POINTL&)`). -/
def readPOINTL (s : List Nat) : Except String (POINTL × List Nat) :=
  andThen (readI32 s) fun x s1 =>
    andThen (readI32 s1) fun y s2 => .ok (⟨x, y⟩, s2)

/-- Read a POINT16 (`operator>> (POINT16&)`). -/
def readPOINT16 (s : List Nat) : Except String (POINT16 × List Nat) :=
  andThen (readI16 s) fun x s1 =>
    andThen (readI16 s1) fun y s2 => .ok (⟨x, y⟩, s2)

/-- Read a RECTL (`operator>> (RECTL&)`). -/
def readRECTL (s : List Nat) : Except String (RECTL × List Nat) :=
  andThen (readI32 s) fun l s1 =>
    andThen (readI32 s1) fun t s2 =>
      andThen (readI32 s2) fun r s3 =>
        andThen (readI32 s3) fun b s4 => .ok (⟨l, t, r, b⟩, s4)

/-- Read a SIZEL (`operator>> (SIZEL&)`). -/
def readSIZEL (s : List Nat) : Except String (SIZEL × List Nat) :=
  andThen (readI32 s) fun cx s1 =>
    andThen (readI32 s1) fun cy s2 => .ok (⟨cx, cy⟩, s2)

/-- Read `n` POINTLs (`operator>> (POINTLARRAY&)`). -/
def readPOINTLList : Nat → List Nat → Except String (List POINTL × List Nat)
  | 0, s => .ok ([], s)
  | n + 1, s =>
    andThen (readPOINTL s) fun p s1 =>
      andThen (readPOINTLList n s1) fun ps s2 => .ok (p :: ps, s2)

/-- Read `n` POINT16s (`operator>> (POINT16ARRAY&)`). -/
def readPOINT16List : Nat → List Nat → Except String (List POINT16 × List Nat)
  | 0, s => .ok ([], s)
  | n + 1, s =>
    andThen (readPOINT16 s) fun p s1 =>
      andThen (readPOINT16List n s1) fun ps s2 => .ok (p :: ps, s2)

/-- Range predicate for a LONG value. -/
def I32Range (l : Int) : Prop := -2147483648 ≤ l ∧ l < 2147483648

instance (l : Int) : Decidable (I32Range l) := by unfold I32Range; infer_instance

/-- Range predicate for a POINTL. -/
def POINTL.InRange (p : POINTL) : Prop := I32Range p.x ∧ I32Range p.y

instance (p : POINTL) : Decidable p.InRange := by unfold POINTL.InRange; infer_instance

/-- Range predicate for a POINT16. -/
def POINT16.InRange (p : POINT16) : Prop :=
  -32768 ≤ p.x ∧ p.x < 32768 ∧ -32768 ≤ p.y ∧ p.y < 32768

instance (p : POINT16) : Decidable p.InRange := by unfold POINT16.InRange; infer_instance

/-- Range predicate for a RECTL. -/
def RECTL.InRange (r : RECTL) : Prop :=
  I32Range r.left ∧ I32Range r.top ∧ I32Range r.right ∧ I32Range r.bottom

instance (r : RECTL) : Decidable r.InRange := by unfold RECTL.InRange; infer_instance

/-- Range predicate for a SIZEL. -/
def SIZEL.InRange (z : SIZEL) : Prop := I32Range z.cx ∧ I32Range z.cy

instance (z : SIZEL) : Decidable z.InRange := by unfold SIZEL.InRange; infer_instance

/-! ### Record-structure sizes

The wine platform headers (`windef.h`, `wingdi.h`) that define the raw
`::ENHMETAHEADER`, `::EMRPOLYPOLYGON`, ... structs are not part of the
repository sources; only `pshpack4.h` (4-byte packing) and `basetsd.h` are.
The constants below are therefore modelled from the spec. -/

/-- Modelled from the spec: `sizeof(DWORD)` (missing `windef.h`); the spec
fixes 4-byte tag/length fields and little-endian 32-bit integers. -/
def sizeofDWORD : Nat := 4

/-- Modelled from the spec: `sizeof(POINTL)`, two 32-bit coordinates. -/
def sizeofPOINTL : Nat := 8

/-- Modelled from the spec: `sizeof(POINT16)`, two 16-bit coordinates. -/
def sizeofPOINT16 : Nat := 4

/-- Modelled from the spec: `sizeof(::EMRPOLYPOLYGON)` (missing `wingdi.h`),
under the 4-byte packing of `pshpack4.h`: EMR (8) + RECTL rclBounds (16) +
nPolys (4) + cptl (4) + aPolyCounts[1] (4) + aptl[1] (8). -/
def sizeofEMRPOLYPOLYGON : Nat := 44

/-- Modelled from the spec: `sizeof(::EMRPOLYPOLYGON16)` (missing `wingdi.h`):
EMR (8) + RECTL (16) + nPolys (4) + cpts (4) + aPolyCounts[1] (4) + apts[1] (4). -/
def sizeofEMRPOLYPOLYGON16 : Nat := 40

/-- Modelled from the spec: the record type tag `EMR_POLYPOLYGON` from the
missing `wingdi.h`; its numeric value does not affect any claim. -/
def EMR_POLYPOLYGON : Nat := 8

/-- Modelled from the spec: the record type tag `EMR_POLYPOLYGON16`. -/
def EMR_POLYPOLYGON16 : Nat := 90

/-- `ROUND_TO_LONG`: round a DWORD byte count up to a multiple of four
(computed in 32-bit unsigned arithmetic). -/
def roundToLong (n : Nat) : Nat := (n + 3) % 4294967296 / 4 * 4

/-- Sequencing for checks that return a plain value. -/
def andThenV (m : Except String α) (f : α → Except String β) : Except String β :=
  match m with
  | .error e => .error e
  | .ok a => f a

/-- The count-accumulation loop of the EMRPOLYPOLYGON / EMRPOLYPOLYGON16
DATASTREAM constructors: `n += cbuffer[c]` in DWORD arithmetic with the
`n < n_old` post-check throwing on unsigned wraparound. -/
def sumCountsOv : Nat → List Nat → Except String Nat
  | n, [] => .ok n
  | n, c :: cs =>
    let n1 := (n + c) % 4294967296
    if n1 < n then .error "Unsigned overflow" else sumCountsOv n1 cs

/-- EMF Poly Polygon record (class `EMRPOLYPOLYGON`): fixed EMR header
fields plus the owned copies of the per-polygon counts and the points. -/
structure EMRPOLYPOLYGON where
  iType : Nat
  nSize : Nat
  rclBounds : RECTL
  nPolys : Nat
  cptl : Nat
  lcounts : List Nat
  lpoints : List POINTL
deriving DecidableEq

/-- EMF Poly Polygon record with 16-bit points (class `EMRPOLYPOLYGON16`). -/
structure EMRPOLYPOLYGON16 where
  iType : Nat
  nSize : Nat
  rclBounds : RECTL
  nPolys : Nat
  cpts : Nat
  lcounts : List Nat
  lpoints : List POINT16
deriving DecidableEq

/-- The programmatic `EMRPOLYPOLYGON` constructor: `cptl` is the sum of the
counts (stored to a DWORD), and `emr.nSize = sizeof(::EMRPOLYPOLYGON) +
sizeof(POINTL)*(cptl-1) + sizeof(DWORD)*(nPolys-1)` where the `-1`s are
DWORD subtractions and the store to the DWORD `nSize` truncates. The
constructor copies the caller arrays. -/
def mkEMRPOLYPOLYGON (bounds : RECTL) (points : List POINTL) (counts : List Nat) :
    EMRPOLYPOLYGON where
  iType := EMR_POLYPOLYGON
  nSize := (sizeofEMRPOLYPOLYGON
    + sizeofPOINTL * ((counts.sum % 4294967296 + 4294967295) % 4294967296)
    + sizeofDWORD * ((counts.length + 4294967295) % 4294967296)) % 4294967296
  rclBounds := bounds
  nPolys := counts.length
  cptl := counts.sum % 4294967296
  lcounts := counts
  lpoints := points

/-- The programmatic `EMRPOLYPOLYGON16` constructor (same shape with
16-bit points). -/
def mkEMRPOLYPOLYGON16 (bounds : RECTL) (points : List POINT16) (counts : List Nat) :
    EMRPOLYPOLYGON16 where
  iType := EMR_POLYPOLYGON16
  nSize := (sizeofEMRPOLYPOLYGON16
    + sizeofPOINT16 * ((counts.sum % 4294967296 + 4294967295) % 4294967296)
    + sizeofDWORD * ((counts.length + 4294967295) % 4294967296)) % 4294967296
  rclBounds := bounds
  nPolys := counts.length
  cpts := counts.sum % 4294967296
  lcounts := counts
  lpoints := points

/-- `EMRPOLYPOLYGON::serialize`: emr header, bounds, counts, then
`DWORDARRAY(lcounts, nPolys)` and `POINTLARRAY(lpoints, cptl)`; under the
constructor-established invariants those array lengths are the lengths of
the owned lists. -/
def serializeEMRPOLYPOLYGON (r : EMRPOLYPOLYGON) : List Nat :=
  encU32 r.iType ++ encU32 r.nSize ++ encRECTL r.rclBounds ++ encU32 r.nPolys
    ++ encU32 r.cptl ++ encU32List r.lcounts ++ encPOINTLList r.lpoints

/-- `EMRPOLYPOLYGON16::serialize`. -/
def serializeEMRPOLYPOLYGON16 (r : EMRPOLYPOLYGON16) : List Nat :=
  encU32 r.iType ++ encU32 r.nSize ++ encRECTL r.rclBounds ++ encU32 r.nPolys
    ++ encU32 r.cpts ++ encU32List r.lcounts ++ encPOINT16List r.lpoints

/-- The `EMRPOLYPOLYGON ( DATASTREAM& )` parsing constructor. The size
check subtracts the size_t constant `sizeof(::EMRPOLYPOLYGON) -
sizeof(POINTL) - sizeof(DWORD)` from the DWORD `emr.nSize` in 64-bit
unsigned arithmetic. -/
def parseEMRPOLYPOLYGON (s0 : List Nat) : Except String (EMRPOLYPOLYGON × List Nat) :=
  andThen (readU32 s0) fun iType s =>
  andThen (readU32 s) fun nSize s =>
  andThen (readRECTL s) fun rclBounds s =>
  andThen (readU32 s) fun nPolys s =>
  andThen (readU32 s) fun cptl s =>
  if (18446744073709551616 + nSize - (sizeofEMRPOLYPOLYGON - sizeofPOINTL - sizeofDWORD))
      % 18446744073709551616 < sizeofPOINTL * cptl + sizeofDWORD * nPolys then
    .error "Invalid record size"
  else
    andThen (readU32List nPolys s) fun lcounts s =>
    andThenV (sumCountsOv 0 lcounts) fun n =>
    if cptl < n then .error "Too few points"
    else
      andThen (readPOINTLList cptl s) fun lpoints s =>
      .ok (⟨iType, nSize, rclBounds, nPolys, cptl, lcounts, lpoints⟩, s)

/-- The `EMRPOLYPOLYGON16 ( DATASTREAM& )` parsing constructor. -/
def parseEMRPOLYPOLYGON16 (s0 : List Nat) : Except String (EMRPOLYPOLYGON16 × List Nat) :=
  andThen (readU32 s0) fun iType s =>
  andThen (readU32 s) fun nSize s =>
  andThen (readRECTL s) fun rclBounds s =>
  andThen (readU32 s) fun nPolys s =>
  andThen (readU32 s) fun cpts s =>
  if (18446744073709551616 + nSize - (sizeofEMRPOLYPOLYGON16 - sizeofPOINT16 - sizeofDWORD))
      % 18446744073709551616 < sizeofPOINT16 * cpts + sizeofDWORD * nPolys then
    .error "Invalid record size"
  else
    andThen (readU32List nPolys s) fun lcounts s =>
    andThenV (sumCountsOv 0 lcounts) fun n =>
    if cpts < n then .error "Too few points"
    else
      andThen (readPOINT16List cpts s) fun lpoints s =>
      .ok (⟨iType, nSize, rclBounds, nPolys, cpts, lcounts, lpoints⟩, s)

/-! ### Enhanced Metafile header record (class `ENHMETAHEADER`) -/

/-- Modelled from the spec: `sizeof(::ENHMETAHEADER)` (missing `wingdi.h`)
under 4-byte packing: the 88 bytes up to and including szlMillimeters,
plus cbPixelFormat/offPixelFormat/bOpenGL (12) and szlMicrometers (8). -/
def sizeofENHMETAHEADER : Nat := 108

/-- Modelled from the spec: `OffsetOf(this, szlMicrometers)` in the missing
`wingdi.h` struct; the 88 fixed bytes plus the 12-byte pixel-format triple. -/
def offsetofSzlMicrometers : Nat := 100

/-- Modelled from the spec: the record type tag `EMR_HEADER`. -/
def EMR_HEADER : Nat := 1

/-- Modelled from the spec: the `ENHMETA_SIGNATURE` constant (ASCII " EMF"). -/
def ENHMETA_SIGNATURE : Nat := 1179469088

/-- Default horizontal resolution of the metafile (`EMF::XMAX_PIXELS`). -/
def XMAX_PIXELS : Int := 1024

/-- Default vertical resolution of the metafile (`EMF::YMAX_PIXELS`). -/
def YMAX_PIXELS : Int := 768

/-- Default horizontal size in millimeters (`EMF::XMAX_MM`). -/
def XMAX_MM : Int := 320

/-- Default vertical size in millimeters (`EMF::YMAX_MM`). -/
def YMAX_MM : Int := 240

/-- The header record: the raw `::ENHMETAHEADER` fields plus the owned
description buffer (`description_w` of length `description_size`). -/
structure ENHMETAHEADERRec where
  iType : Nat
  nSize : Nat
  rclBounds : RECTL
  rclFrame : RECTL
  dSignature : Nat
  nVersion : Nat
  nBytes : Nat
  nRecords : Nat
  nHandles : Nat
  sReserved : Nat
  nDescription : Nat
  offDescription : Nat
  nPalEntries : Nat
  szlDevice : SIZEL
  szlMillimeters : SIZEL
  cbPixelFormat : Nat
  offPixelFormat : Nat
  bOpenGL : Nat
  szlMicrometers : SIZEL
  description : List Nat
deriving DecidableEq

/-- The three-NUL scan of the `ENHMETAHEADER` constructor:
`while (nulls < 3) { count++; if (*p++ == 0) nulls++; }`, counting the
characters up to and including the third NUL. An input exhausted before
the third NUL would read out of bounds in C++; here the scan stops. -/
def countToThirdNull : List Nat → Nat → Nat
  | [], _ => 0
  | c :: rest, nulls =>
    if c = 0 then
      if nulls + 1 = 3 then 1 else 1 + countToThirdNull rest (nulls + 1)
    else 1 + countToThirdNull rest nulls

/-- The default-constructed header `ENHMETAHEADER(0)`: all counters and
offsets at their constructor values; note `szlMicrometers` is initialized
to `1000 * szlMillimeters`. -/
def baseHeader : ENHMETAHEADERRec where
  iType := EMR_HEADER
  nSize := sizeofENHMETAHEADER
  rclBounds := ⟨0, 0, 0, 0⟩
  rclFrame := ⟨0, 0, 0, 0⟩
  dSignature := ENHMETA_SIGNATURE
  nVersion := 65536
  nBytes := sizeofENHMETAHEADER
  nRecords := 1
  nHandles := 0
  sReserved := 0
  nDescription := 0
  offDescription := 0
  nPalEntries := 0
  szlDevice := ⟨XMAX_PIXELS, YMAX_PIXELS⟩
  szlMillimeters := ⟨XMAX_MM, YMAX_MM⟩
  cbPixelFormat := 0
  offPixelFormat := 0
  bOpenGL := 0
  szlMicrometers := ⟨1000 * XMAX_MM, 1000 * YMAX_MM⟩
  description := []

/-- The programmatic `ENHMETAHEADER` constructor: without a description it
is `baseHeader`; with one, the description is counted up to the third NUL,
the record size is rounded to a multiple of four, and the owned copy is
zero-padded to `description_size = (record_size - sizeof) / 2` WCHARs. -/
def mkHeader : Option (List Nat) → ENHMETAHEADERRec
  | none => baseHeader
  | some d =>
    let count := countToThirdNull d 0
    let recordSize := roundToLong (sizeofENHMETAHEADER + 2 * count)
    let dsize := (recordSize - sizeofENHMETAHEADER) / 2
    { baseHeader with
      nSize := recordSize
      nBytes := recordSize
      nDescription := count
      offDescription := sizeofENHMETAHEADER
      description := d.take count ++ List.replicate (dsize - count) 0 }

/-- `ENHMETAHEADER::serialize`: the fixed fields in stream order followed by
`WCHARSTR(description_w, description_size)`. -/
def serializeENHMETAHEADER (r : ENHMETAHEADERRec) : List Nat :=
  encU32 r.iType ++ encU32 r.nSize ++ encRECTL r.rclBounds ++ encRECTL r.rclFrame
    ++ encU32 r.dSignature ++ encU32 r.nVersion ++ encU32 r.nBytes ++ encU32 r.nRecords
    ++ encU16 r.nHandles ++ encU16 r.sReserved ++ encU32 r.nDescription
    ++ encU32 r.offDescription ++ encU32 r.nPalEntries ++ encSIZEL r.szlDevice
    ++ encSIZEL r.szlMillimeters ++ encU32 r.cbPixelFormat ++ encU32 r.offPixelFormat
    ++ encU32 r.bOpenGL ++ encSIZEL r.szlMicrometers ++ encU16List r.description

/-- `ENHMETAHEADER::unserialize`, acting on a default-constructed header (the
parse path allocates `ENHMETAHEADER()` first, so fields that are not read
keep their `baseHeader` values). The pixel-format triple is read only when
`OffsetOf(szlMicrometers) <= offDescription` and `szlMicrometers` only when
`sizeof(::ENHMETAHEADER) <= offDescription`. `description_size_to_read` is
the 32-bit unsigned difference `nSize - offDescription` divided by 2; being
less than 2^31 it survives the cast to `int` unchanged. The description
buffer receives the read WCHARs with its last two entries forced to NUL. -/
def parseENHMETAHEADER (s0 : List Nat) : Except String (ENHMETAHEADERRec × List Nat) :=
  andThen (readU32 s0) fun iType s =>
  andThen (readU32 s) fun nSize s =>
  andThen (readRECTL s) fun rclBounds s =>
  andThen (readRECTL s) fun rclFrame s =>
  andThen (readU32 s) fun dSignature s =>
  andThen (readU32 s) fun nVersion s =>
  andThen (readU32 s) fun nBytes s =>
  andThen (readU32 s) fun nRecords s =>
  andThen (readU16 s) fun nHandles s =>
  andThen (readU16 s) fun sReserved s =>
  andThen (readU32 s) fun nDescription s =>
  andThen (readU32 s) fun offDescription s =>
  andThen (readU32 s) fun nPalEntries s =>
  andThen (readSIZEL s) fun szlDevice s =>
  andThen (readSIZEL s) fun szlMillimeters s =>
  andThen (if offsetofSzlMicrometers ≤ offDescription then
      andThen (readU32 s) fun cb s1 =>
      andThen (readU32 s1) fun off s2 =>
      andThen (readU32 s2) fun gl s3 => .ok ((cb, off, gl), s3)
    else .ok ((baseHeader.cbPixelFormat, baseHeader.offPixelFormat, baseHeader.bOpenGL), s))
    fun pix s =>
  andThen (if sizeofENHMETAHEADER ≤ offDescription then readSIZEL s
    else .ok (baseHeader.szlMicrometers, s)) fun szlMicrometers s =>
  let dstr : Nat := (4294967296 + nSize - offDescription) % 4294967296 / 2
  if (dstr : Int) < toSigned32 nDescription then
    .error "record size inconsistent with description size"
  else
    let dsize : Nat := max 2 dstr
    andThen (readU16List dstr s) fun wchars s =>
    .ok ({ iType := iType, nSize := nSize, rclBounds := rclBounds, rclFrame := rclFrame,
           dSignature := dSignature, nVersion := nVersion, nBytes := nBytes,
           nRecords := nRecords, nHandles := nHandles, sReserved := sReserved,
           nDescription := nDescription, offDescription := offDescription,
           nPalEntries := nPalEntries, szlDevice := szlDevice,
           szlMillimeters := szlMillimeters,
           cbPixelFormat := pix.1, offPixelFormat := pix.2.1, bOpenGL := pix.2.2,
           szlMicrometers := szlMicrometers,
           description := wchars.take (dsize - 2) ++ [0, 0] }, s)

/-- A representative description argument: "t\x00u\x00\x00" as WCHAR values. -/
def demoDescription : List Nat := [116, 0, 117, 0, 0]

/-! ### Extended text output record (class `EMREXTTEXTOUTA`) -/

/-- Modelled from the spec: the record type tag `EMR_EXTTEXTOUTA`. -/
def EMR_EXTTEXTOUTA : Nat := 83

/-- Read `n` INTs (`operator>> (INTARRAY&)`). -/
def readI32List : Nat → List Nat → Except String (List Int × List Nat)
  | 0, s => .ok ([], s)
  | n + 1, s =>
    andThen (readI32 s) fun d s1 =>
      andThen (readI32List n s1) fun ds s2 => .ok (d :: ds, s2)

/-- The extended-text-output record: fixed `::EMREXTTEXTOUTA` fields (the
FLOAT scales are carried as raw 32-bit patterns, never computed with) plus
the optional owned string and dx buffers. -/
structure EMREXTTEXTOUTA where
  iType : Nat
  nSize : Nat
  rclBounds : RECTL
  iGraphicsMode : Nat
  exScale : Nat
  eyScale : Nat
  ptlReference : POINTL
  nChars : Nat
  offString : Nat
  fOptions : Nat
  rcl : RECTL
  offDx : Nat
  stringA : Option (List Nat)
  dxI : Option (List Int)
deriving DecidableEq

/-- The `EMREXTTEXTOUTA ( DATASTREAM& )` parsing constructor: read the fixed
fields and the embedded EMRTEXT, reject invalid text specifications (the
second comparison is the 32-bit unsigned `nChars > nSize - offString`), then
read `ROUND_TO_LONG(nChars)` string bytes when `offString != 0` and `nChars`
INTs when `offDx != 0`. -/
def parseEMREXTTEXTOUTA (s0 : List Nat) : Except String (EMREXTTEXTOUTA × List Nat) :=
  andThen (readU32 s0) fun iType s =>
  andThen (readU32 s) fun nSize s =>
  andThen (readRECTL s) fun rclBounds s =>
  andThen (readU32 s) fun iGraphicsMode s =>
  andThen (readU32 s) fun exScale s =>
  andThen (readU32 s) fun eyScale s =>
  andThen (readPOINTL s) fun ptlReference s =>
  andThen (readU32 s) fun nChars s =>
  andThen (readU32 s) fun offString s =>
  andThen (readU32 s) fun fOptions s =>
  andThen (readRECTL s) fun rcl s =>
  andThen (readU32 s) fun offDx s =>
  if 0 < nChars ∧ offString = 0 then .error "Invalid text specification"
  else if (4294967296 + nSize - offString) % 4294967296 < nChars then
    .error "Invalid text specification"
  else
    andThen (if offString ≠ 0 then
        andThen (readByteList (roundToLong nChars) s) fun str s1 => .ok (some str, s1)
      else .ok (none, s)) fun stringA s =>
    andThen (if offDx ≠ 0 then
        andThen (readI32List nChars s) fun dx s1 => .ok (some dx, s1)
      else .ok (none, s)) fun dxI s =>
    .ok ({ iType := iType, nSize := nSize, rclBounds := rclBounds,
           iGraphicsMode := iGraphicsMode, exScale := exScale, eyScale := eyScale,
           ptlReference := ptlReference, nChars := nChars, offString := offString,
           fOptions := fOptions, rcl := rcl, offDx := offDx,
           stringA := stringA, dxI := dxI }, s)

/-! ### Device-context coordinate mapping and bounds accumulation
(`METAFILEDEVICECONTEXT::mergePoint`) -/

/-- The extent guard `e <= 0 ? 1 : e` applied to window extents and to the
device size in the frame computation. -/
def guardExt (e : Int) : Int := if e ≤ 0 then 1 else e

/-- The device-context state consulted and updated by `mergePoint`; the
bounds/frame fields live in the context's header record. -/
structure DCState where
  windowOrg : POINTL
  windowExt : SIZEL
  viewportOrg : POINTL
  viewportExt : SIZEL
  updateFrame : Bool
  minDevicePoint : POINTL
  maxDevicePoint : POINTL
  rclBounds : RECTL
  rclFrame : RECTL
  szlDevice : SIZEL
  szlMillimeters : SIZEL
deriving DecidableEq

/-- The `device_point` computation of `mergePoint`:
`(LONG)((float)(p - window_org) / window_width * viewport_ext + viewport_org)`
with only the window extent passing through the `<= 0 ? 1` guard. FLOAT
arithmetic is modelled as exact arithmetic, under which the expression is
the single fraction `((p - wo) * ve + vo * ww) / ww` with `ww >= 1`, and
the `(LONG)` cast truncates toward zero: `Int.tdiv` by the positive `ww`. -/
def devicePoint (dc : DCState) (p : POINTL) : POINTL where
  x := Int.tdiv ((p.x - dc.windowOrg.x) * dc.viewportExt.cx
        + dc.viewportOrg.x * guardExt dc.windowExt.cx) (guardExt dc.windowExt.cx)
  y := Int.tdiv ((p.y - dc.windowOrg.y) * dc.viewportExt.cy
        + dc.viewportOrg.y * guardExt dc.windowExt.cy) (guardExt dc.windowExt.cy)

/-- Modelled from the spec: the device mapping exactly as the specification
words it, with window AND viewport extents of zero or negative value both
treated as 1. Stated only for comparison with `devicePoint`, which is the
translation of the source. -/
def specDevicePoint (dc : DCState) (p : POINTL) : POINTL where
  x := Int.tdiv ((p.x - dc.windowOrg.x) * guardExt dc.viewportExt.cx
        + dc.viewportOrg.x * guardExt dc.windowExt.cx) (guardExt dc.windowExt.cx)
  y := Int.tdiv ((p.y - dc.windowOrg.y) * guardExt dc.viewportExt.cy
        + dc.viewportOrg.y * guardExt dc.windowExt.cy) (guardExt dc.windowExt.cy)

/-- The floored frame edge `(LONG)floor((float)edge * millimeters * 100 /
device_size)` with the device size guarded like the source; over exact
arithmetic the floor of a fraction with positive denominator is `Int.fdiv`. -/
def frameFloor (boundsEdge mm dev : Int) : Int :=
  Int.fdiv (boundsEdge * mm * 100) (guardExt dev)

/-- The ceiled frame edge `(LONG)ceil(...)`: the ceiling of a fraction with
positive denominator, as `-((-n) fdiv d)`. -/
def frameCeil (boundsEdge mm dev : Int) : Int :=
  -Int.fdiv (-(boundsEdge * mm * 100)) (guardExt dev)

/-- The x-axis half of `mergePoint`: expand the running min/max device x
and, when the frame is not fixed, the header bounds (10-unit margin) and
the frame rectangle (floored on the left, ceiled on the right). -/
def mergeX (dc0 : DCState) (d : POINTL) : DCState :=
  if d.x < dc0.minDevicePoint.x then
    let dc := { dc0 with minDevicePoint := ⟨d.x, dc0.minDevicePoint.y⟩ }
    if dc.updateFrame then
      { dc with
        rclBounds := { dc.rclBounds with left := d.x - 10 }
        rclFrame := { dc.rclFrame with
          left := frameFloor (d.x - 10) dc.szlMillimeters.cx dc.szlDevice.cx } }
    else dc
  else if dc0.maxDevicePoint.x < d.x then
    let dc := { dc0 with maxDevicePoint := ⟨d.x, dc0.maxDevicePoint.y⟩ }
    if dc.updateFrame then
      { dc with
        rclBounds := { dc.rclBounds with right := d.x + 10 }
        rclFrame := { dc.rclFrame with
          right := frameCeil (d.x + 10) dc.szlMillimeters.cx dc.szlDevice.cx } }
    else dc
  else dc0

/-- The y-axis half of `mergePoint`, applied to the state the x-axis half
produced. -/
def mergeY (dcx : DCState) (d : POINTL) : DCState :=
  if d.y < dcx.minDevicePoint.y then
    let dc := { dcx with minDevicePoint := ⟨dcx.minDevicePoint.x, d.y⟩ }
    if dc.updateFrame then
      { dc with
        rclBounds := { dc.rclBounds with top := d.y - 10 }
        rclFrame := { dc.rclFrame with
          top := frameFloor (d.y - 10) dc.szlMillimeters.cy dc.szlDevice.cy } }
    else dc
  else if dcx.maxDevicePoint.y < d.y then
    let dc := { dcx with maxDevicePoint := ⟨dcx.maxDevicePoint.x, d.y⟩ }
    if dc.updateFrame then
      { dc with
        rclBounds := { dc.rclBounds with bottom := d.y + 10 }
        rclFrame := { dc.rclFrame with
          bottom := frameCeil (d.y + 10) dc.szlMillimeters.cy dc.szlDevice.cy } }
    else dc
  else dcx

/-- `METAFILEDEVICECONTEXT::mergePoint`: map the logical point to device
space, then run the x-axis updates followed by the y-axis updates, exactly
in source order. -/
def mergePoint (dc0 : DCState) (p : POINTL) : DCState :=
  mergeY (mergeX dc0 (devicePoint dc0 p)) (devicePoint dc0 p)

/-- The state of the spec examples: window extent (2,2), viewport extent
(100,100), both origins (0,0), auto-computed frame, default device metrics
and the initial bounds of `init` without a fixed size. -/
def demoMergeDC : DCState where
  windowOrg := ⟨0, 0⟩
  windowExt := ⟨2, 2⟩
  viewportOrg := ⟨0, 0⟩
  viewportExt := ⟨100, 100⟩
  updateFrame := true
  minDevicePoint := ⟨0, 0⟩
  maxDevicePoint := ⟨0, 0⟩
  rclBounds := ⟨-10, -10, 10, 10⟩
  rclFrame := ⟨-313, -313, 313, 313⟩
  szlDevice := ⟨XMAX_PIXELS, YMAX_PIXELS⟩
  szlMillimeters := ⟨XMAX_MM, YMAX_MM⟩

/-- A state with zero viewport extents, on which the source and the spec
wording disagree. -/
def zeroViewportDC : DCState :=
  { demoMergeDC with
    windowExt := ⟨1, 1⟩
    viewportExt := ⟨0, 0⟩ }

/-! ### Handle table (`METAFILEDEVICECONTEXT::nextHandle` / `clearHandle`)

Modelled from the spec where widths are concerned: the header's `nHandles`
counter is kept as an exact count (its machine width lives in the missing
`wingdi.h`; the spec calls `nRecords`/`nHandles` exact counts). -/

/-- The context-local bit vector of used handles plus the header's running
handle count. -/
structure HandleState where
  handles : List Bool
  nHandles : Nat
deriving DecidableEq

/-- The scan loop of `nextHandle` over the slots at indices `i, i+1, ...`:
skip used slots, return the index of the first clear one. Structural over
the remaining slot list. -/
def scanFreeAux : List Bool → Nat → Option Nat
  | [], _ => none
  | true :: rest, i => scanFreeAux rest (i + 1)
  | false :: _, i => some i

/-- First index at or after `i` whose bit is clear, if any: the loop of
`nextHandle` starting at slot `i`. -/
def scanFree (hs : List Bool) (i : Nat) : Option Nat := scanFreeAux (hs.drop i) i

/-- `METAFILEDEVICECONTEXT::nextHandle`: scan from index 1 for a free slot
and mark it used; if none, push a used slot, update the header handle count
to the new table size, and return the new index. -/
def nextHandle (s : HandleState) : Nat × HandleState :=
  match scanFree s.handles 1 with
  | some i => (i, { s with handles := s.handles.set i true })
  | none => (s.handles.length,
      { handles := s.handles ++ [true]
        nHandles := s.handles.length + 1 })

/-- `METAFILEDEVICECONTEXT::clearHandle`: clear the bit when in range,
otherwise do nothing. -/
def clearHandle (s : HandleState) (h : Nat) : HandleState :=
  if h < s.handles.length then { s with handles := s.handles.set h false } else s

/-- The handle table right after `METAFILEDEVICECONTEXT::init`: slot 0
pre-marked used so handle 0 is never assigned; header handle count 0. -/
def initHandleState : HandleState := ⟨[true], 0⟩

/-- A handle-table operation: an allocation or a free. -/
inductive DCOp
  | next : DCOp
  | clear : Nat → DCOp
deriving DecidableEq

/-- Run a sequence of handle-table operations. -/
def runOps (s : HandleState) : List DCOp → HandleState
  | [] => s
  | .next :: ops => runOps (nextHandle s).2 ops
  | .clear h :: ops => runOps (clearHandle s h) ops

/-- The spec scenario: allocate handles 1..5 then free handle 3. -/
def demoHandleScenario : HandleState :=
  runOps initHandleState [.next, .next, .next, .next, .next, .clear 3]

/-! ### Record append (`appendRecord` / `appendHandle`)

A record is represented by its `size()`; these paths consult nothing else.
The header counters are modelled from the spec as exact counts (widths in
the missing `wingdi.h`). -/

/-- The record list and header counters touched by the append paths. -/
structure RecordList where
  records : List Nat
  nBytes : Nat
  nRecords : Nat
  nHandles : Nat
deriving DecidableEq

/-- `METAFILEDEVICECONTEXT::appendRecord`: push the record, add its size to
the header byte count, bump the record count. -/
def appendRecord (s : RecordList) (recSize : Nat) : RecordList :=
  { s with
    records := s.records ++ [recSize]
    nBytes := s.nBytes + recSize
    nRecords := s.nRecords + 1 }

/-- `METAFILEDEVICECONTEXT::appendHandle`: textually identical to
`appendRecord`; in particular it does not touch the handle count. -/
def appendHandle (s : RecordList) (recSize : Nat) : RecordList :=
  { s with
    records := s.records ++ [recSize]
    nBytes := s.nBytes + recSize
    nRecords := s.nRecords + 1 }

/-- A short-write model of the `DATASTREAM::fwrite` wrapper: a sink with a
byte capacity; writing more than fits is the short-write error (`res <
nmemb` throws), writing within capacity transfers every byte. -/
def writeByteStream (capacity : Nat) (bytes : List Nat) : Except String (List Nat) :=
  if bytes.length ≤ capacity then .ok bytes else .error streamWriteErr

/-! ### Concrete artifacts used by counterexamples and witnesses -/

/-- A poly-polygon stream whose declared size 24 is smaller than the fixed
record size, escaping the fit check through 64-bit wraparound: one declared
point, no polygons. -/
def c2BadStream : List Nat :=
  encU32 8 ++ encU32 24 ++ encRECTL ⟨0, 0, 0, 0⟩ ++ encU32 0 ++ encU32 1
    ++ encPOINTLList [⟨1, 2⟩]

/-- The record produced from `c2BadStream`. -/
def c2BadRec : EMRPOLYPOLYGON := ⟨8, 24, ⟨0, 0, 0, 0⟩, 0, 1, [], [⟨1, 2⟩]⟩

/-- A poly-polygon stream with declared size 33 (not a multiple of four and
one byte more than the 32 bytes the record re-serializes to). -/
def c3SlackStream : List Nat :=
  encU32 8 ++ encU32 33 ++ encRECTL ⟨0, 0, 0, 0⟩ ++ encU32 0 ++ encU32 0

/-- The record produced from `c3SlackStream`. -/
def c3SlackRec : EMRPOLYPOLYGON := ⟨8, 33, ⟨0, 0, 0, 0⟩, 0, 0, [], []⟩

/-- An old-format header stream: 88 bytes of fixed fields with
`offDescription = 88` (before the pixel-format triple) followed directly by
a 4-WCHAR description; `nSize = 96`. -/
def c7OldStream : List Nat :=
  encU32 EMR_HEADER ++ encU32 96 ++ encRECTL ⟨0, 0, 0, 0⟩ ++ encRECTL ⟨0, 0, 0, 0⟩
    ++ encU32 ENHMETA_SIGNATURE ++ encU32 65536 ++ encU32 96 ++ encU32 1
    ++ encU16 0 ++ encU16 0 ++ encU32 3 ++ encU32 88 ++ encU32 0
    ++ encSIZEL ⟨XMAX_PIXELS, YMAX_PIXELS⟩ ++ encSIZEL ⟨XMAX_MM, YMAX_MM⟩
    ++ encU16List [104, 0, 0, 0]

/-- The record produced from `c7OldStream`: the gated fields keep their
constructor defaults, in particular `szlMicrometers = (320000, 240000)`. -/
def c7OldRec : ENHMETAHEADERRec :=
  { baseHeader with
    nSize := 96
    nBytes := 96
    nDescription := 3
    offDescription := 88
    description := [104, 0, 0, 0] }

/-- An extended-text-output stream whose `offString = 80` exceeds its
`nSize = 76`: one declared character, no dx array, followed by the four
string bytes the parser then consumes from beyond the declared record. -/
def c8BadStream : List Nat :=
  encU32 EMR_EXTTEXTOUTA ++ encU32 76 ++ encRECTL ⟨0, 0, 0, 0⟩ ++ encU32 1
    ++ encU32 0 ++ encU32 0 ++ encPOINTL ⟨0, 0⟩ ++ encU32 1 ++ encU32 80
    ++ encU32 0 ++ encRECTL ⟨0, 0, 0, 0⟩ ++ encU32 0 ++ [65, 0, 0, 0]

/-- The record produced from `c8BadStream`. -/
def c8BadRec : EMREXTTEXTOUTA :=
  { iType := EMR_EXTTEXTOUTA, nSize := 76, rclBounds := ⟨0, 0, 0, 0⟩,
    iGraphicsMode := 1, exScale := 0, eyScale := 0, ptlReference := ⟨0, 0⟩,
    nChars := 1, offString := 80, fOptions := 0, rcl := ⟨0, 0, 0, 0⟩,
    offDx := 0, stringA := some [65, 0, 0, 0], dxI := none }

@[simp] theorem andThen_ok (a : α) (s : List Nat)
    (f : α → List Nat → Except String (β × List Nat)) :
    andThen (.ok (a, s)) f = f a s := rfl

@[simp] theorem andThen_error (e : String)
    (f : α → List Nat → Except String (β × List Nat)) :
    andThen (α := α) (.error e) f = .error e := rfl

/-! ### Decode-after-encode lemmas for the primitives -/

theorem readU8_enc (b : Nat) (s : List Nat) (h : b < 256) :
    readU8 (encU8 b ++ s) = .ok (b, s) := by
  simp [readU8, encU8, Nat.mod_eq_of_lt h]

theorem readU16_enc (w : Nat) (s : List Nat) (h : w < 65536) :
    readU16 (encU16 w ++ s) = .ok (w, s) := by
  simp only [readU16, encU16, List.cons_append, List.nil_append]
  have hw : w % 256 + 256 * (w / 256 % 256) = w := by omega
  rw [hw]

theorem readU32_enc (d : Nat) (s : List Nat) (h : d < 4294967296) :
    readU32 (encU32 d ++ s) = .ok (d, s) := by
  simp only [readU32, encU32, List.cons_append, List.nil_append]
  have hd : d % 256 + 256 * (d / 256 % 256) + 65536 * (d / 65536 % 256)
      + 16777216 * (d / 16777216 % 256) = d := by omega
  rw [hd]

theorem readI32_enc (l : Int) (s : List Nat)
    (h1 : -2147483648 ≤ l) (h2 : l < 2147483648) :
    readI32 (encI32 l ++ s) = .ok (l, s) := by
  have hm : (l % 4294967296).toNat < 4294967296 := by omega
  simp only [readI32, encI32, readU32_enc _ _ hm]
  have : toSigned32 (l % 4294967296).toNat = l := by
    simp only [toSigned32]
    split <;> omega
  rw [this]

theorem readI16_enc (w : Int) (s : List Nat)
    (h1 : -32768 ≤ w) (h2 : w < 32768) :
    readI16 (encI16 w ++ s) = .ok (w, s) := by
  have hm : (w % 65536).toNat < 65536 := by omega
  simp only [readI16, encI16, readU16_enc _ _ hm]
  have : toSigned16 (w % 65536).toNat = w := by
    simp only [toSigned16]
    split <;> omega
  rw [this]

theorem readPOINTL_enc (p : POINTL) (s : List Nat) (h : p.InRange) :
    readPOINTL (encPOINTL p ++ s) = .ok (p, s) := by
  obtain ⟨⟨h1, h2⟩, ⟨h3, h4⟩⟩ := h
  simp [readPOINTL, encPOINTL, readI32_enc _ _ h1 h2, readI32_enc _ _ h3 h4]

theorem readPOINT16_enc (p : POINT16) (s : List Nat) (h : p.InRange) :
    readPOINT16 (encPOINT16 p ++ s) = .ok (p, s) := by
  obtain ⟨h1, h2, h3, h4⟩ := h
  simp [readPOINT16, encPOINT16, readI16_enc _ _ h1 h2, readI16_enc _ _ h3 h4]

theorem readRECTL_enc (r : RECTL) (s : List Nat) (h : r.InRange) :
    readRECTL (encRECTL r ++ s) = .ok (r, s) := by
  obtain ⟨⟨h1, h2⟩, ⟨h3, h4⟩, ⟨h5, h6⟩, ⟨h7, h8⟩⟩ := h
  simp [readRECTL, encRECTL, readI32_enc _ _ h1 h2, readI32_enc _ _ h3 h4,
    readI32_enc _ _ h5 h6, readI32_enc _ _ h7 h8]

theorem readSIZEL_enc (z : SIZEL) (s : List Nat) (h : z.InRange) :
    readSIZEL (encSIZEL z ++ s) = .ok (z, s) := by
  obtain ⟨⟨h1, h2⟩, ⟨h3, h4⟩⟩ := h
  simp [readSIZEL, encSIZEL, readI32_enc _ _ h1 h2, readI32_enc _ _ h3 h4]

theorem readU32List_enc (ds : List Nat) (s : List Nat)
    (h : ∀ d ∈ ds, d < 4294967296) :
    readU32List ds.length (encU32List ds ++ s) = .ok (ds, s) := by
  induction ds with
  | nil => simp [readU32List, encU32List]
  | cons d ds ih =>
    have hd : d < 4294967296 := h d (List.mem_cons_self d ds)
    have hrest : ∀ x ∈ ds, x < 4294967296 := fun x hx => h x (List.mem_cons_of_mem d hx)
    simp only [List.length_cons, readU32List, encU32List, List.foldr_cons, List.append_assoc]
    rw [readU32_enc d _ hd]
    simp only [andThen_ok]
    rw [show (ds.foldr (fun d acc => encU32 d ++ acc) [] : List Nat) = encU32List ds from rfl,
      ih hrest]
    rfl

theorem readU16List_enc (ws : List Nat) (s : List Nat)
    (h : ∀ w ∈ ws, w < 65536) :
    readU16List ws.length (encU16List ws ++ s) = .ok (ws, s) := by
  induction ws with
  | nil => simp [readU16List, encU16List]
  | cons w ws ih =>
    have hd : w < 65536 := h w (List.mem_cons_self w ws)
    have hrest : ∀ x ∈ ws, x < 65536 := fun x hx => h x (List.mem_cons_of_mem w hx)
    simp only [List.length_cons, readU16List, encU16List, List.foldr_cons, List.append_assoc]
    rw [readU16_enc w _ hd]
    simp only [andThen_ok]
    rw [show (ws.foldr (fun w acc => encU16 w ++ acc) [] : List Nat) = encU16List ws from rfl,
      ih hrest]
    rfl

theorem readPOINTLList_enc (ps : List POINTL) (s : List Nat)
    (h : ∀ p ∈ ps, p.InRange) :
    readPOINTLList ps.length (encPOINTLList ps ++ s) = .ok (ps, s) := by
  induction ps with
  | nil => simp [readPOINTLList, encPOINTLList]
  | cons p ps ih =>
    have hd : p.InRange := h p (List.mem_cons_self p ps)
    have hrest : ∀ x ∈ ps, x.InRange := fun x hx => h x (List.mem_cons_of_mem p hx)
    simp only [List.length_cons, readPOINTLList, encPOINTLList, List.foldr_cons,
      List.append_assoc]
    rw [readPOINTL_enc p _ hd]
    simp only [andThen_ok]
    rw [show (ps.foldr (fun p acc => encPOINTL p ++ acc) [] : List Nat) = encPOINTLList ps
      from rfl, ih hrest]
    rfl

theorem readPOINT16List_enc (ps : List POINT16) (s : List Nat)
    (h : ∀ p ∈ ps, p.InRange) :
    readPOINT16List ps.length (encPOINT16List ps ++ s) = .ok (ps, s) := by
  induction ps with
  | nil => simp [readPOINT16List, encPOINT16List]
  | cons p ps ih =>
    have hd : p.InRange := h p (List.mem_cons_self p ps)
    have hrest : ∀ x ∈ ps, x.InRange := fun x hx => h x (List.mem_cons_of_mem p hx)
    simp only [List.length_cons, readPOINT16List, encPOINT16List, List.foldr_cons,
      List.append_assoc]
    rw [readPOINT16_enc p _ hd]
    simp only [andThen_ok]
    rw [show (ps.foldr (fun p acc => encPOINT16 p ++ acc) [] : List Nat) = encPOINT16List ps
      from rfl, ih hrest]
    rfl

/-! ### Length lemmas for the encoders -/

@[simp] theorem encU16_length (w : Nat) : (encU16 w).length = 2 := rfl

@[simp] theorem encU32_length (d : Nat) : (encU32 d).length = 4 := rfl

@[simp] theorem encI32_length (l : Int) : (encI32 l).length = 4 := rfl

@[simp] theorem encI16_length (w : Int) : (encI16 w).length = 2 := rfl

@[simp] theorem encPOINTL_length (p : POINTL) : (encPOINTL p).length = 8 := rfl

@[simp] theorem encPOINT16_length (p : POINT16) : (encPOINT16 p).length = 4 := rfl

@[simp] theorem encRECTL_length (r : RECTL) : (encRECTL r).length = 16 := rfl

@[simp] theorem encSIZEL_length (z : SIZEL) : (encSIZEL z).length = 8 := rfl

@[simp] theorem encU32List_length (ds : List Nat) :
    (encU32List ds).length = 4 * ds.length := by
  induction ds with
  | nil => rfl
  | cons d ds ih =>
    simp only [encU32List, List.foldr_cons] at ih ⊢
    simp [List.length_append, ih]
    omega

@[simp] theorem encU16List_length (ws : List Nat) :
    (encU16List ws).length = 2 * ws.length := by
  induction ws with
  | nil => rfl
  | cons w ws ih =>
    simp only [encU16List, List.foldr_cons] at ih ⊢
    simp [List.length_append, ih]
    omega

@[simp] theorem encPOINTLList_length (ps : List POINTL) :
    (encPOINTLList ps).length = 8 * ps.length := by
  induction ps with
  | nil => rfl
  | cons p ps ih =>
    simp only [encPOINTLList, List.foldr_cons] at ih ⊢
    simp [List.length_append, ih]
    omega

@[simp] theorem encPOINT16List_length (ps : List POINT16) :
    (encPOINT16List ps).length = 4 * ps.length := by
  induction ps with
  | nil => rfl
  | cons p ps ih =>
    simp only [encPOINT16List, List.foldr_cons] at ih ⊢
    simp [List.length_append, ih]
    omega

@[simp] theorem andThenV_ok (a : α) (f : α → Except String β) :
    andThenV (.ok a) f = f a := rfl

@[simp] theorem andThenV_error (e : String) (f : α → Except String β) :
    andThenV (α := α) (.error e) f = .error e := rfl

/-! ### Behaviour of the count-accumulation loop -/

theorem sumCountsOv_ok (cs : List Nat) (acc : Nat) (hacc : acc < 4294967296)
    (h : acc + cs.sum < 4294967296) :
    sumCountsOv acc cs = .ok (acc + cs.sum) := by
  induction cs generalizing acc with
  | nil => simp [sumCountsOv]
  | cons c cs ih =>
    simp only [List.sum_cons] at h
    simp only [sumCountsOv]
    have h1 : (acc + c) % 4294967296 = acc + c := Nat.mod_eq_of_lt (by omega)
    rw [if_neg (by omega)]
    rw [h1, ih (acc + c) (by omega) (by omega)]
    congr 1
    rw [List.sum_cons]
    omega

theorem sumCountsOv_overflow (cs : List Nat) (acc : Nat) (hacc : acc < 4294967296)
    (hcs : ∀ c ∈ cs, c < 4294967296)
    (h : 4294967296 ≤ acc + cs.sum) :
    sumCountsOv acc cs = .error "Unsigned overflow" := by
  induction cs generalizing acc with
  | nil => simp at h; omega
  | cons c cs ih =>
    have hc : c < 4294967296 := hcs c (List.mem_cons_self c cs)
    have hrest : ∀ x ∈ cs, x < 4294967296 := fun x hx => hcs x (List.mem_cons_of_mem c hx)
    simp only [List.sum_cons] at h
    simp only [sumCountsOv]
    by_cases hov : 4294967296 ≤ acc + c
    · rw [if_pos (by omega)]
    · have h1 : (acc + c) % 4294967296 = acc + c := Nat.mod_eq_of_lt (by omega)
      rw [if_neg (by omega), h1]
      exact ih (acc + c) (by omega) hrest (by omega)

/-! ### General behaviour of the poly-polygon parsers -/

theorem parseEMRPOLYPOLYGON_ok (iType nSize nPolys cptl : Nat) (bounds : RECTL)
    (counts : List Nat) (points : List POINTL) (rest : List Nat)
    (hiType : iType < 4294967296) (hnSize : nSize < 4294967296)
    (hbounds : bounds.InRange)
    (hnPolys32 : nPolys < 4294967296) (hcptl32 : cptl < 4294967296)
    (hnPolys : nPolys = counts.length) (hcptl : cptl = points.length)
    (hcounts : ∀ c ∈ counts, c < 4294967296)
    (hpoints : ∀ p ∈ points, p.InRange)
    (hsum : counts.sum = cptl)
    (hfit : ¬ ((18446744073709551616 + nSize
        - (sizeofEMRPOLYPOLYGON - sizeofPOINTL - sizeofDWORD))
        % 18446744073709551616
        < sizeofPOINTL * cptl + sizeofDWORD * nPolys)) :
    parseEMRPOLYPOLYGON (encU32 iType ++ encU32 nSize ++ encRECTL bounds
        ++ encU32 nPolys ++ encU32 cptl ++ encU32List counts
        ++ encPOINTLList points ++ rest)
      = .ok (⟨iType, nSize, bounds, nPolys, cptl, counts, points⟩, rest) := by
  subst hnPolys
  subst hcptl
  have hs := sumCountsOv_ok counts 0 (by omega) (by omega)
  have hrc := fun s => readU32List_enc counts s hcounts
  have hrp := fun s => readPOINTLList_enc points s hpoints
  simp only [parseEMRPOLYPOLYGON, List.append_assoc, readU32_enc _ _ hiType, readU32_enc _ _ hnSize,
    readRECTL_enc _ _ hbounds, readU32_enc _ _ hnPolys32, readU32_enc _ _ hcptl32,
    andThen_ok, if_neg hfit, hrc, hs, andThenV_ok,
    Nat.zero_add, hsum, lt_self_iff_false, if_false, hrp]

theorem parseEMRPOLYPOLYGON16_ok (iType nSize nPolys cpts : Nat) (bounds : RECTL)
    (counts : List Nat) (points : List POINT16) (rest : List Nat)
    (hiType : iType < 4294967296) (hnSize : nSize < 4294967296)
    (hbounds : bounds.InRange)
    (hnPolys32 : nPolys < 4294967296) (hcpts32 : cpts < 4294967296)
    (hnPolys : nPolys = counts.length) (hcpts : cpts = points.length)
    (hcounts : ∀ c ∈ counts, c < 4294967296)
    (hpoints : ∀ p ∈ points, p.InRange)
    (hsum : counts.sum = cpts)
    (hfit : ¬ ((18446744073709551616 + nSize
        - (sizeofEMRPOLYPOLYGON16 - sizeofPOINT16 - sizeofDWORD))
        % 18446744073709551616
        < sizeofPOINT16 * cpts + sizeofDWORD * nPolys)) :
    parseEMRPOLYPOLYGON16 (encU32 iType ++ encU32 nSize ++ encRECTL bounds
        ++ encU32 nPolys ++ encU32 cpts ++ encU32List counts
        ++ encPOINT16List points ++ rest)
      = .ok (⟨iType, nSize, bounds, nPolys, cpts, counts, points⟩, rest) := by
  subst hnPolys
  subst hcpts
  have hs := sumCountsOv_ok counts 0 (by omega) (by omega)
  have hrc := fun s => readU32List_enc counts s hcounts
  have hrp := fun s => readPOINT16List_enc points s hpoints
  simp only [parseEMRPOLYPOLYGON16, List.append_assoc, readU32_enc _ _ hiType, readU32_enc _ _ hnSize,
    readRECTL_enc _ _ hbounds, readU32_enc _ _ hnPolys32, readU32_enc _ _ hcpts32,
    andThen_ok, if_neg hfit, hrc, hs, andThenV_ok,
    Nat.zero_add, hsum, lt_self_iff_false, if_false, hrp]

theorem parseEMRPOLYPOLYGON_sizeErr (iType nSize nPolys cptl : Nat) (bounds : RECTL)
    (rest : List Nat)
    (hiType : iType < 4294967296) (hnSize : nSize < 4294967296)
    (hbounds : bounds.InRange)
    (hnPolys32 : nPolys < 4294967296) (hcptl32 : cptl < 4294967296)
    (hfit : (18446744073709551616 + nSize
        - (sizeofEMRPOLYPOLYGON - sizeofPOINTL - sizeofDWORD))
        % 18446744073709551616
        < sizeofPOINTL * cptl + sizeofDWORD * nPolys) :
    parseEMRPOLYPOLYGON (encU32 iType ++ encU32 nSize ++ encRECTL bounds
        ++ encU32 nPolys ++ encU32 cptl ++ rest)
      = .error "Invalid record size" := by
  simp only [parseEMRPOLYPOLYGON, List.append_assoc, readU32_enc _ _ hiType, readU32_enc _ _ hnSize,
    readRECTL_enc _ _ hbounds, readU32_enc _ _ hnPolys32, readU32_enc _ _ hcptl32,
    andThen_ok, if_pos hfit]

theorem parseEMRPOLYPOLYGON16_sizeErr (iType nSize nPolys cpts : Nat) (bounds : RECTL)
    (rest : List Nat)
    (hiType : iType < 4294967296) (hnSize : nSize < 4294967296)
    (hbounds : bounds.InRange)
    (hnPolys32 : nPolys < 4294967296) (hcpts32 : cpts < 4294967296)
    (hfit : (18446744073709551616 + nSize
        - (sizeofEMRPOLYPOLYGON16 - sizeofPOINT16 - sizeofDWORD))
        % 18446744073709551616
        < sizeofPOINT16 * cpts + sizeofDWORD * nPolys) :
    parseEMRPOLYPOLYGON16 (encU32 iType ++ encU32 nSize ++ encRECTL bounds
        ++ encU32 nPolys ++ encU32 cpts ++ rest)
      = .error "Invalid record size" := by
  simp only [parseEMRPOLYPOLYGON16, List.append_assoc, readU32_enc _ _ hiType, readU32_enc _ _ hnSize,
    readRECTL_enc _ _ hbounds, readU32_enc _ _ hnPolys32, readU32_enc _ _ hcpts32,
    andThen_ok, if_pos hfit]

theorem parseEMRPOLYPOLYGON_overflowErr (iType nSize nPolys cptl : Nat)
    (bounds : RECTL) (counts : List Nat) (rest : List Nat)
    (hiType : iType < 4294967296) (hnSize : nSize < 4294967296)
    (hbounds : bounds.InRange)
    (hnPolys32 : nPolys < 4294967296) (hcptl32 : cptl < 4294967296)
    (hnPolys : nPolys = counts.length)
    (hcounts : ∀ c ∈ counts, c < 4294967296)
    (hov : 4294967296 ≤ counts.sum)
    (hfit : ¬ ((18446744073709551616 + nSize
        - (sizeofEMRPOLYPOLYGON - sizeofPOINTL - sizeofDWORD))
        % 18446744073709551616
        < sizeofPOINTL * cptl + sizeofDWORD * nPolys)) :
    parseEMRPOLYPOLYGON (encU32 iType ++ encU32 nSize ++ encRECTL bounds
        ++ encU32 nPolys ++ encU32 cptl ++ encU32List counts ++ rest)
      = .error "Unsigned overflow" := by
  subst hnPolys
  have hs := sumCountsOv_overflow counts 0 (by omega) hcounts (by omega)
  have hrc := fun s => readU32List_enc counts s hcounts
  simp only [parseEMRPOLYPOLYGON, List.append_assoc, readU32_enc _ _ hiType, readU32_enc _ _ hnSize,
    readRECTL_enc _ _ hbounds, readU32_enc _ _ hnPolys32, readU32_enc _ _ hcptl32,
    andThen_ok, if_neg hfit, hrc, hs, andThenV_error]

theorem parseEMRPOLYPOLYGON16_overflowErr (iType nSize nPolys cpts : Nat)
    (bounds : RECTL) (counts : List Nat) (rest : List Nat)
    (hiType : iType < 4294967296) (hnSize : nSize < 4294967296)
    (hbounds : bounds.InRange)
    (hnPolys32 : nPolys < 4294967296) (hcpts32 : cpts < 4294967296)
    (hnPolys : nPolys = counts.length)
    (hcounts : ∀ c ∈ counts, c < 4294967296)
    (hov : 4294967296 ≤ counts.sum)
    (hfit : ¬ ((18446744073709551616 + nSize
        - (sizeofEMRPOLYPOLYGON16 - sizeofPOINT16 - sizeofDWORD))
        % 18446744073709551616
        < sizeofPOINT16 * cpts + sizeofDWORD * nPolys)) :
    parseEMRPOLYPOLYGON16 (encU32 iType ++ encU32 nSize ++ encRECTL bounds
        ++ encU32 nPolys ++ encU32 cpts ++ encU32List counts ++ rest)
      = .error "Unsigned overflow" := by
  subst hnPolys
  have hs := sumCountsOv_overflow counts 0 (by omega) hcounts (by omega)
  have hrc := fun s => readU32List_enc counts s hcounts
  simp only [parseEMRPOLYPOLYGON16, List.append_assoc, readU32_enc _ _ hiType, readU32_enc _ _ hnSize,
    readRECTL_enc _ _ hbounds, readU32_enc _ _ hnPolys32, readU32_enc _ _ hcpts32,
    andThen_ok, if_neg hfit, hrc, hs, andThenV_error]

theorem parseEMRPOLYPOLYGON_tooFewErr (iType nSize nPolys cptl : Nat)
    (bounds : RECTL) (counts : List Nat) (rest : List Nat)
    (hiType : iType < 4294967296) (hnSize : nSize < 4294967296)
    (hbounds : bounds.InRange)
    (hnPolys32 : nPolys < 4294967296) (hcptl32 : cptl < 4294967296)
    (hnPolys : nPolys = counts.length)
    (hcounts : ∀ c ∈ counts, c < 4294967296)
    (hsum32 : counts.sum < 4294967296)
    (htoofew : cptl < counts.sum)
    (hfit : ¬ ((18446744073709551616 + nSize
        - (sizeofEMRPOLYPOLYGON - sizeofPOINTL - sizeofDWORD))
        % 18446744073709551616
        < sizeofPOINTL * cptl + sizeofDWORD * nPolys)) :
    parseEMRPOLYPOLYGON (encU32 iType ++ encU32 nSize ++ encRECTL bounds
        ++ encU32 nPolys ++ encU32 cptl ++ encU32List counts ++ rest)
      = .error "Too few points" := by
  subst hnPolys
  have hs := sumCountsOv_ok counts 0 (by omega) (by omega)
  have hlt : cptl < 0 + counts.sum := by omega
  have hrc := fun s => readU32List_enc counts s hcounts
  simp only [parseEMRPOLYPOLYGON, List.append_assoc, readU32_enc _ _ hiType, readU32_enc _ _ hnSize,
    readRECTL_enc _ _ hbounds, readU32_enc _ _ hnPolys32, readU32_enc _ _ hcptl32,
    andThen_ok, if_neg hfit, hrc, hs, andThenV_ok,
    if_pos hlt]

theorem parseEMRPOLYPOLYGON16_tooFewErr (iType nSize nPolys cpts : Nat)
    (bounds : RECTL) (counts : List Nat) (rest : List Nat)
    (hiType : iType < 4294967296) (hnSize : nSize < 4294967296)
    (hbounds : bounds.InRange)
    (hnPolys32 : nPolys < 4294967296) (hcpts32 : cpts < 4294967296)
    (hnPolys : nPolys = counts.length)
    (hcounts : ∀ c ∈ counts, c < 4294967296)
    (hsum32 : counts.sum < 4294967296)
    (htoofew : cpts < counts.sum)
    (hfit : ¬ ((18446744073709551616 + nSize
        - (sizeofEMRPOLYPOLYGON16 - sizeofPOINT16 - sizeofDWORD))
        % 18446744073709551616
        < sizeofPOINT16 * cpts + sizeofDWORD * nPolys)) :
    parseEMRPOLYPOLYGON16 (encU32 iType ++ encU32 nSize ++ encRECTL bounds
        ++ encU32 nPolys ++ encU32 cpts ++ encU32List counts ++ rest)
      = .error "Too few points" := by
  subst hnPolys
  have hs := sumCountsOv_ok counts 0 (by omega) (by omega)
  have hlt : cpts < 0 + counts.sum := by omega
  have hrc := fun s => readU32List_enc counts s hcounts
  simp only [parseEMRPOLYPOLYGON16, List.append_assoc, readU32_enc _ _ hiType, readU32_enc _ _ hnSize,
    readRECTL_enc _ _ hbounds, readU32_enc _ _ hnPolys32, readU32_enc _ _ hcpts32,
    andThen_ok, if_neg hfit, hrc, hs, andThenV_ok,
    if_pos hlt]

theorem countToThirdNull_le (d : List Nat) (n : Nat) : countToThirdNull d n ≤ d.length := by
  induction d generalizing n with
  | nil => simp [countToThirdNull]
  | cons c rest ih =>
    simp only [countToThirdNull, List.length_cons]
    split
    · split
      · omega
      · have := ih (n + 1)
        omega
    · have := ih n
      omega

/-- C2 (corrected): for every byte stream parsed as a poly-polygon record
(32-bit or 16-bit point variant), if the sum of the per-polygon vertex
counts overflows its 32-bit unsigned width, or exceeds the record's declared
total point count, or the declared counts and points do not fit in the
record's declared total size — where the fit check compares the 64-bit
unsigned difference `nSize - 32` against the payload size — parsing is
rejected with one of the malformed-record errors before the point buffer is
read; the `Except` result carries no record, so the point buffer is never
populated, truncated or clamped. -/
theorem claim_C2_theorem :
    (∀ (iType nSize nPolys cptl : Nat) (bounds : RECTL) (counts rest : List Nat),
      iType < 4294967296 → nSize < 4294967296 → bounds.InRange →
      nPolys < 4294967296 → cptl < 4294967296 → nPolys = counts.length →
      (∀ c ∈ counts, c < 4294967296) →
      ((18446744073709551616 + nSize - (sizeofEMRPOLYPOLYGON - sizeofPOINTL - sizeofDWORD))
          % 18446744073709551616 < sizeofPOINTL * cptl + sizeofDWORD * nPolys
        ∨ 4294967296 ≤ counts.sum ∨ cptl < counts.sum) →
      ∃ e, parseEMRPOLYPOLYGON (encU32 iType ++ encU32 nSize ++ encRECTL bounds
          ++ encU32 nPolys ++ encU32 cptl ++ encU32List counts ++ rest) = .error e
        ∧ (e = "Invalid record size" ∨ e = "Unsigned overflow" ∨ e = "Too few points"))
  ∧ (∀ (iType nSize nPolys cpts : Nat) (bounds : RECTL) (counts rest : List Nat),
      iType < 4294967296 → nSize < 4294967296 → bounds.InRange →
      nPolys < 4294967296 → cpts < 4294967296 → nPolys = counts.length →
      (∀ c ∈ counts, c < 4294967296) →
      ((18446744073709551616 + nSize - (sizeofEMRPOLYPOLYGON16 - sizeofPOINT16 - sizeofDWORD))
          % 18446744073709551616 < sizeofPOINT16 * cpts + sizeofDWORD * nPolys
        ∨ 4294967296 ≤ counts.sum ∨ cpts < counts.sum) →
      ∃ e, parseEMRPOLYPOLYGON16 (encU32 iType ++ encU32 nSize ++ encRECTL bounds
          ++ encU32 nPolys ++ encU32 cpts ++ encU32List counts ++ rest) = .error e
        ∧ (e = "Invalid record size" ∨ e = "Unsigned overflow" ∨ e = "Too few points")) := by
  constructor
  · intro iType nSize nPolys cptl bounds counts rest h1 h2 h3 h4 h5 h6 h7 hbad
    by_cases hfit : (18446744073709551616 + nSize
        - (sizeofEMRPOLYPOLYGON - sizeofPOINTL - sizeofDWORD)) % 18446744073709551616
        < sizeofPOINTL * cptl + sizeofDWORD * nPolys
    · have he := parseEMRPOLYPOLYGON_sizeErr iType nSize nPolys cptl bounds
        (encU32List counts ++ rest) h1 h2 h3 h4 h5 hfit
      rw [← List.append_assoc] at he
      exact ⟨_, he, Or.inl rfl⟩
    · by_cases hov : 4294967296 ≤ counts.sum
      · exact ⟨_, parseEMRPOLYPOLYGON_overflowErr iType nSize nPolys cptl bounds counts
          rest h1 h2 h3 h4 h5 h6 h7 hov hfit, Or.inr (Or.inl rfl)⟩
      · have htoofew : cptl < counts.sum := by
          rcases hbad with hb | hb | hb
          · exact absurd hb hfit
          · exact absurd hb hov
          · exact hb
        exact ⟨_, parseEMRPOLYPOLYGON_tooFewErr iType nSize nPolys cptl bounds counts
          rest h1 h2 h3 h4 h5 h6 h7 (by omega) htoofew hfit, Or.inr (Or.inr rfl)⟩
  · intro iType nSize nPolys cpts bounds counts rest h1 h2 h3 h4 h5 h6 h7 hbad
    by_cases hfit : (18446744073709551616 + nSize
        - (sizeofEMRPOLYPOLYGON16 - sizeofPOINT16 - sizeofDWORD)) % 18446744073709551616
        < sizeofPOINT16 * cpts + sizeofDWORD * nPolys
    · have he := parseEMRPOLYPOLYGON16_sizeErr iType nSize nPolys cpts bounds
        (encU32List counts ++ rest) h1 h2 h3 h4 h5 hfit
      rw [← List.append_assoc] at he
      exact ⟨_, he, Or.inl rfl⟩
    · by_cases hov : 4294967296 ≤ counts.sum
      · exact ⟨_, parseEMRPOLYPOLYGON16_overflowErr iType nSize nPolys cpts bounds counts
          rest h1 h2 h3 h4 h5 h6 h7 hov hfit, Or.inr (Or.inl rfl)⟩
      · have htoofew : cpts < counts.sum := by
          rcases hbad with hb | hb | hb
          · exact absurd hb hfit
          · exact absurd hb hov
          · exact hb
        exact ⟨_, parseEMRPOLYPOLYGON16_tooFewErr iType nSize nPolys cpts bounds counts
          rest h1 h2 h3 h4 h5 h6 h7 (by omega) htoofew hfit, Or.inr (Or.inr rfl)⟩

/-- C2 counterexample: the stream `c2BadStream` declares `nSize = 24`, less
than the 32-byte fixed prefix, so its one declared point cannot fit in the
declared total size; yet the 64-bit unsigned subtraction wraps, the fit
check passes, parsing succeeds and the point buffer IS populated, contrary
to the claim that such a record is rejected with a malformed-record error. -/
theorem claim_C2_counterexample :
    parseEMRPOLYPOLYGON c2BadStream = .ok (c2BadRec, []) := rfl

/-- C2 witness: concrete rejections on both variants: a record declaring one
polygon with five vertices but zero total points. -/
theorem claim_C2_witness :
    (∃ e, parseEMRPOLYPOLYGON (encU32 8 ++ encU32 40 ++ encRECTL ⟨0, 0, 0, 0⟩
        ++ encU32 1 ++ encU32 0 ++ encU32List [5] ++ []) = .error e
      ∧ (e = "Invalid record size" ∨ e = "Unsigned overflow" ∨ e = "Too few points"))
  ∧ (∃ e, parseEMRPOLYPOLYGON16 (encU32 90 ++ encU32 40 ++ encRECTL ⟨0, 0, 0, 0⟩
        ++ encU32 1 ++ encU32 0 ++ encU32List [5] ++ []) = .error e
      ∧ (e = "Invalid record size" ∨ e = "Unsigned overflow" ∨ e = "Too few points")) :=
  ⟨claim_C2_theorem.1 8 40 1 0 ⟨0, 0, 0, 0⟩ [5] [] (by decide) (by decide) (by decide)
      (by decide) (by decide) (by decide) (by decide) (Or.inr (Or.inr (by decide))),
   claim_C2_theorem.2 90 40 1 0 ⟨0, 0, 0, 0⟩ [5] [] (by decide) (by decide) (by decide)
      (by decide) (by decide) (by decide) (by decide) (Or.inr (Or.inr (by decide)))⟩

/-- C1 (corrected): round-trip holds for programmatically constructed
poly-polygon records — minimal (zero polygons, zero points) and arbitrary
well-formed payloads alike — and for a header constructed with a
description; the minimal header (no description) does NOT round-trip and is
the subject of the counterexample. -/
theorem claim_C1_theorem :
    (∀ (bounds : RECTL) (points : List POINTL) (counts : List Nat),
      bounds.InRange → (∀ p ∈ points, p.InRange) →
      (∀ c ∈ counts, c < 4294967296) →
      counts.sum = points.length →
      32 + 8 * points.length + 4 * counts.length < 4294967296 →
      parseEMRPOLYPOLYGON (serializeEMRPOLYPOLYGON (mkEMRPOLYPOLYGON bounds points counts))
        = .ok (mkEMRPOLYPOLYGON bounds points counts, []))
  ∧ parseENHMETAHEADER (serializeENHMETAHEADER (mkHeader (some demoDescription)))
      = .ok (mkHeader (some demoDescription), []) := by
  constructor
  · intro bounds points counts hb hp hc hsum hfit
    have hsum32 : counts.sum < 4294967296 := by omega
    have hcptl : counts.sum % 4294967296 = points.length := by
      rw [hsum]
      exact Nat.mod_eq_of_lt (by omega)
    have hnSizeEq : (mkEMRPOLYPOLYGON bounds points counts).nSize
        = 32 + 8 * points.length + 4 * counts.length := by
      simp only [mkEMRPOLYPOLYGON, sizeofEMRPOLYPOLYGON, sizeofPOINTL, sizeofDWORD]
      omega
    have h0 := parseEMRPOLYPOLYGON_ok EMR_POLYPOLYGON
      ((mkEMRPOLYPOLYGON bounds points counts).nSize) counts.length
      (counts.sum % 4294967296) bounds counts points [] (by decide)
      (by omega) hb (by omega) (by omega) rfl (by omega)
      hc hp (Nat.mod_eq_of_lt (by omega)).symm
      (by simp only [hnSizeEq, hcptl, sizeofEMRPOLYPOLYGON, sizeofPOINTL, sizeofDWORD]
          omega)
    rw [List.append_nil] at h0
    exact h0
  · rfl

/-- C1 counterexample: the minimal header — default-constructed, no
description, `offDescription = 0` — does not round-trip: `unserialize`
computes `(nSize - offDescription) / 2 = 54` description WCHARs to read,
which runs 88 bytes past the 108 bytes `serialize` wrote, and the read
fails with the short-read stream error. -/
theorem claim_C1_counterexample :
    parseENHMETAHEADER (serializeENHMETAHEADER (mkHeader none)) = .error streamReadErr :=
  rfl

/-- C1 witness: the poly-polygon round-trip instantiated at the minimal
(zero-length arrays) record and at a representative two-polygon record. -/
theorem claim_C1_witness :
    parseEMRPOLYPOLYGON (serializeEMRPOLYPOLYGON (mkEMRPOLYPOLYGON ⟨0, 0, 0, 0⟩ [] []))
        = .ok (mkEMRPOLYPOLYGON ⟨0, 0, 0, 0⟩ [] [], [])
  ∧ parseEMRPOLYPOLYGON (serializeEMRPOLYPOLYGON (mkEMRPOLYPOLYGON ⟨0, 0, 4, 4⟩
        [⟨0, 0⟩, ⟨4, 0⟩, ⟨4, 4⟩, ⟨0, 4⟩, ⟨-2, -2⟩] [4, 1]))
      = .ok (mkEMRPOLYPOLYGON ⟨0, 0, 4, 4⟩
        [⟨0, 0⟩, ⟨4, 0⟩, ⟨4, 4⟩, ⟨0, 4⟩, ⟨-2, -2⟩] [4, 1], []) :=
  ⟨claim_C1_theorem.1 ⟨0, 0, 0, 0⟩ [] [] (by decide) (by decide) (by decide) (by decide)
      (by decide),
   claim_C1_theorem.1 ⟨0, 0, 4, 4⟩ [⟨0, 0⟩, ⟨4, 0⟩, ⟨4, 4⟩, ⟨0, 4⟩, ⟨-2, -2⟩] [4, 1]
      (by decide) (by decide) (by decide) (by decide) (by decide)⟩

/-- C3 (corrected): for programmatically constructed records, `size()`
equals the number of bytes `serialize` writes and is a multiple of four —
proved for the poly-polygon constructor, the header constructor with a
description, and the default header. For parsed records the declared size
is only checked against a lower bound, so the equality can fail (see the
counterexample). -/
theorem claim_C3_theorem :
    (∀ (bounds : RECTL) (points : List POINTL) (counts : List Nat),
      (∀ c ∈ counts, c < 4294967296) →
      counts.sum = points.length →
      32 + 8 * points.length + 4 * counts.length < 4294967296 →
      (serializeEMRPOLYPOLYGON (mkEMRPOLYPOLYGON bounds points counts)).length
          = (mkEMRPOLYPOLYGON bounds points counts).nSize
        ∧ (mkEMRPOLYPOLYGON bounds points counts).nSize % 4 = 0)
  ∧ (∀ d : List Nat, countToThirdNull d 0 < 1073741824 →
      (serializeENHMETAHEADER (mkHeader (some d))).length = (mkHeader (some d)).nSize
        ∧ (mkHeader (some d)).nSize % 4 = 0)
  ∧ ((serializeENHMETAHEADER (mkHeader none)).length = (mkHeader none).nSize
      ∧ (mkHeader none).nSize % 4 = 0) := by
  refine ⟨?_, ?_, by decide⟩
  · intro bounds points counts hc hsum hfit
    have hlen : (serializeEMRPOLYPOLYGON (mkEMRPOLYPOLYGON bounds points counts)).length
        = 32 + 4 * counts.length + 8 * points.length := by
      simp only [serializeEMRPOLYPOLYGON, mkEMRPOLYPOLYGON, List.length_append,
        encU32_length, encRECTL_length, encU32List_length, encPOINTLList_length]
    constructor
    · rw [hlen]
      simp only [mkEMRPOLYPOLYGON, sizeofEMRPOLYPOLYGON, sizeofPOINTL, sizeofDWORD]
      omega
    · simp only [mkEMRPOLYPOLYGON, sizeofEMRPOLYPOLYGON, sizeofPOINTL, sizeofDWORD]
      omega
  · intro d hcount
    have hle := countToThirdNull_le d 0
    have hdesc : (mkHeader (some d)).description.length
        = (roundToLong (sizeofENHMETAHEADER + 2 * countToThirdNull d 0)
            - sizeofENHMETAHEADER) / 2 := by
      simp only [mkHeader, List.length_append, List.length_take, List.length_replicate]
      simp only [roundToLong, sizeofENHMETAHEADER]
      omega
    have hlen : (serializeENHMETAHEADER (mkHeader (some d))).length
        = 108 + 2 * (mkHeader (some d)).description.length := by
      simp only [serializeENHMETAHEADER, List.length_append, encU32_length, encU16_length,
        encRECTL_length, encSIZEL_length, encU16List_length]
    have hnSize : (mkHeader (some d)).nSize
        = roundToLong (sizeofENHMETAHEADER + 2 * countToThirdNull d 0) := rfl
    constructor
    · rw [hlen, hdesc, hnSize]
      simp only [roundToLong, sizeofENHMETAHEADER]
      omega
    · rw [hnSize]
      simp only [roundToLong, sizeofENHMETAHEADER]
      omega

/-- C3 counterexample: a parsed poly-polygon record may declare a size that
is neither the number of bytes `serialize` writes nor a multiple of four:
`c3SlackStream` declares `nSize = 33` with no polygons and no points; the
parser accepts it, `serialize` writes 32 bytes, and 33 is not a multiple of
four. -/
theorem claim_C3_counterexample :
    parseEMRPOLYPOLYGON c3SlackStream = .ok (c3SlackRec, [])
  ∧ (serializeEMRPOLYPOLYGON c3SlackRec).length ≠ c3SlackRec.nSize
  ∧ c3SlackRec.nSize % 4 ≠ 0 :=
  ⟨rfl, by decide, by decide⟩

/-- C3 witness: the size invariant instantiated at a representative
poly-polygon record and at the demo description header. -/
theorem claim_C3_witness :
    ((serializeEMRPOLYPOLYGON (mkEMRPOLYPOLYGON ⟨0, 0, 4, 4⟩
        [⟨0, 0⟩, ⟨4, 0⟩, ⟨4, 4⟩] [3])).length
      = (mkEMRPOLYPOLYGON ⟨0, 0, 4, 4⟩ [⟨0, 0⟩, ⟨4, 0⟩, ⟨4, 4⟩] [3]).nSize
    ∧ (mkEMRPOLYPOLYGON ⟨0, 0, 4, 4⟩ [⟨0, 0⟩, ⟨4, 0⟩, ⟨4, 4⟩] [3]).nSize % 4 = 0)
  ∧ ((serializeENHMETAHEADER (mkHeader (some demoDescription))).length
      = (mkHeader (some demoDescription)).nSize
    ∧ (mkHeader (some demoDescription)).nSize % 4 = 0) :=
  ⟨claim_C3_theorem.1 ⟨0, 0, 4, 4⟩ [⟨0, 0⟩, ⟨4, 0⟩, ⟨4, 4⟩] [3] (by decide) (by decide)
      (by decide),
   claim_C3_theorem.2.1 demoDescription (by decide)⟩

/-- C7 (corrected): parsing a header whose description offset precedes the
pixel-format triple and the micrometer field reads neither from the stream
(each later-version field is read only when the offset just past it is at
most the description offset, so in particular a field being read implies
its own offset is at most the description offset); parsing still succeeds,
consumes only the bytes the file contains, and the absent fields keep the
constructor defaults — zero for the pixel-format triple but
`1000 * szlMillimeters-default = (320000, 240000)` for the micrometer
field, NOT zero. -/
theorem claim_C7_theorem :
    ∀ (iType nSize dSignature nVersion nBytes nRecords nHandles sReserved
        nDescription offDescription nPalEntries : Nat)
      (rclBounds rclFrame : RECTL) (szlDevice szlMillimeters : SIZEL)
      (wchars rest : List Nat),
      iType < 4294967296 → nSize < 4294967296 → dSignature < 4294967296 →
      nVersion < 4294967296 → nBytes < 4294967296 → nRecords < 4294967296 →
      nHandles < 65536 → sReserved < 65536 → nDescription < 4294967296 →
      offDescription < 4294967296 → nPalEntries < 4294967296 →
      rclBounds.InRange → rclFrame.InRange → szlDevice.InRange →
      szlMillimeters.InRange → (∀ w ∈ wchars, w < 65536) →
      offDescription < offsetofSzlMicrometers →
      offDescription ≤ nSize →
      wchars.length = (nSize - offDescription) / 2 →
      2 ≤ wchars.length →
      nDescription ≤ wchars.length →
      nDescription < 2147483648 →
      wchars.length < 2147483648 →
      parseENHMETAHEADER (encU32 iType ++ encU32 nSize ++ encRECTL rclBounds
          ++ encRECTL rclFrame ++ encU32 dSignature ++ encU32 nVersion ++ encU32 nBytes
          ++ encU32 nRecords ++ encU16 nHandles ++ encU16 sReserved ++ encU32 nDescription
          ++ encU32 offDescription ++ encU32 nPalEntries ++ encSIZEL szlDevice
          ++ encSIZEL szlMillimeters ++ encU16List wchars ++ rest)
        = .ok ({
            iType := iType
            nSize := nSize
            rclBounds := rclBounds
            rclFrame := rclFrame
            dSignature := dSignature
            nVersion := nVersion
            nBytes := nBytes
            nRecords := nRecords
            nHandles := nHandles
            sReserved := sReserved
            nDescription := nDescription
            offDescription := offDescription
            nPalEntries := nPalEntries
            szlDevice := szlDevice
            szlMillimeters := szlMillimeters
            cbPixelFormat := 0
            offPixelFormat := 0
            bOpenGL := 0
            szlMicrometers := ⟨1000 * XMAX_MM, 1000 * YMAX_MM⟩
            description := wchars.take (wchars.length - 2) ++ [0, 0] }, rest) := by
  intro iType nSize dSignature nVersion nBytes nRecords nHandles sReserved
    nDescription offDescription nPalEntries rclBounds rclFrame szlDevice
    szlMillimeters wchars rest hiType hnSize hSig hVer hBytes hRecs hHandles
    hRes hNDesc hOff hPal hB hF hDev hMm hW hgate hle hlen h2 hnd hnd31 hlen31
  have hgate1 : ¬ (offsetofSzlMicrometers ≤ offDescription) := by omega
  have hgate2 : ¬ (sizeofENHMETAHEADER ≤ offDescription) := by
    simp only [sizeofENHMETAHEADER, offsetofSzlMicrometers] at hgate ⊢
    omega
  have hdstrEq : (4294967296 + nSize - offDescription) % 4294967296 / 2
      = wchars.length := by omega
  have hts : toSigned32 nDescription = (nDescription : Int) := by
    simp only [toSigned32]
    split <;> omega
  have hcmp : ¬ (((wchars.length : Nat) : Int) < toSigned32 nDescription) := by
    rw [hts]
    omega
  have hmax : (2 : Nat) ⊔ wchars.length = wchars.length := by omega
  have hrw := fun s => readU16List_enc wchars s hW
  simp only [parseENHMETAHEADER, List.append_assoc, readU32_enc _ _ hiType,
    readU32_enc _ _ hnSize, readRECTL_enc _ _ hB, readRECTL_enc _ _ hF,
    readU32_enc _ _ hSig, readU32_enc _ _ hVer, readU32_enc _ _ hBytes,
    readU32_enc _ _ hRecs, readU16_enc _ _ hHandles, readU16_enc _ _ hRes,
    readU32_enc _ _ hNDesc, readU32_enc _ _ hOff, readU32_enc _ _ hPal,
    readSIZEL_enc _ _ hDev, readSIZEL_enc _ _ hMm, andThen_ok,
    if_neg hgate1, if_neg hgate2, if_neg hcmp, hdstrEq, hmax, hrw, baseHeader]

/-- C7 counterexample: the old-format header stream `c7OldStream`
(description offset 88, before the micrometer field at offset 100) parses
successfully, but the resulting record's micrometer field is the
constructor default (320000, 240000) — it is NOT equivalent to a record
with the absent micrometer field set to a zero value as the claim states. -/
theorem claim_C7_counterexample :
    parseENHMETAHEADER c7OldStream = .ok (c7OldRec, [])
  ∧ c7OldRec.szlMicrometers ≠ SIZEL.mk 0 0 :=
  ⟨rfl, by decide⟩

/-- C7 witness: the old-format parse theorem instantiated at the concrete
88-byte header with a 4-WCHAR description. -/
theorem claim_C7_witness :
    parseENHMETAHEADER (encU32 1 ++ encU32 96 ++ encRECTL ⟨0, 0, 0, 0⟩
        ++ encRECTL ⟨0, 0, 0, 0⟩ ++ encU32 1179469088 ++ encU32 65536 ++ encU32 96
        ++ encU32 1 ++ encU16 0 ++ encU16 0 ++ encU32 3 ++ encU32 88 ++ encU32 0
        ++ encSIZEL ⟨1024, 768⟩ ++ encSIZEL ⟨320, 240⟩ ++ encU16List [104, 0, 0, 0] ++ [])
      = .ok ({
          iType := 1
          nSize := 96
          rclBounds := ⟨0, 0, 0, 0⟩
          rclFrame := ⟨0, 0, 0, 0⟩
          dSignature := 1179469088
          nVersion := 65536
          nBytes := 96
          nRecords := 1
          nHandles := 0
          sReserved := 0
          nDescription := 3
          offDescription := 88
          nPalEntries := 0
          szlDevice := ⟨1024, 768⟩
          szlMillimeters := ⟨320, 240⟩
          cbPixelFormat := 0
          offPixelFormat := 0
          bOpenGL := 0
          szlMicrometers := ⟨1000 * XMAX_MM, 1000 * YMAX_MM⟩
          description := [104, 0, 0, 0].take ([104, 0, 0, 0].length - 2) ++ [0, 0] }, []) :=
  claim_C7_theorem 1 96 1179469088 65536 96 1 0 0 3 88 0 ⟨0, 0, 0, 0⟩ ⟨0, 0, 0, 0⟩
    ⟨1024, 768⟩ ⟨320, 240⟩ [104, 0, 0, 0] [] (by decide) (by decide) (by decide)
    (by decide) (by decide) (by decide) (by decide) (by decide) (by decide) (by decide)
    (by decide) (by decide) (by decide) (by decide) (by decide) (by decide) (by decide)
    (by decide) (by decide) (by decide) (by decide) (by decide) (by decide)

/-- C8 (corrected): an extended-text-output record declaring a non-zero
character count with a zero string offset, or a character count exceeding
the 32-bit unsigned difference `nSize - offString` (the bytes remaining
between the string offset and the declared total size, computed with
wraparound), is rejected with the invalid-text-specification error before
any string or dx buffer is read; because of the wraparound, an `offString`
beyond `nSize` escapes the check (see the counterexample). -/
theorem claim_C8_theorem :
    ∀ (iType nSize iGraphicsMode exScale eyScale nChars offString fOptions offDx : Nat)
      (rclBounds rcl : RECTL) (ptlReference : POINTL) (rest : List Nat),
      iType < 4294967296 → nSize < 4294967296 → rclBounds.InRange →
      iGraphicsMode < 4294967296 → exScale < 4294967296 → eyScale < 4294967296 →
      ptlReference.InRange → nChars < 4294967296 → offString < 4294967296 →
      fOptions < 4294967296 → rcl.InRange → offDx < 4294967296 →
      ((0 < nChars ∧ offString = 0)
        ∨ (4294967296 + nSize - offString) % 4294967296 < nChars) →
      parseEMREXTTEXTOUTA (encU32 iType ++ encU32 nSize ++ encRECTL rclBounds
          ++ encU32 iGraphicsMode ++ encU32 exScale ++ encU32 eyScale
          ++ encPOINTL ptlReference ++ encU32 nChars ++ encU32 offString
          ++ encU32 fOptions ++ encRECTL rcl ++ encU32 offDx ++ rest)
        = .error "Invalid text specification" := by
  intro iType nSize iGraphicsMode exScale eyScale nChars offString fOptions offDx
    rclBounds rcl ptlReference rest h1 h2 h3 h4 h5 h6 h7 h8 h9 h10 h11 h12 hbad
  by_cases hA : 0 < nChars ∧ offString = 0
  · simp only [parseEMREXTTEXTOUTA, List.append_assoc, readU32_enc _ _ h1,
      readU32_enc _ _ h2, readRECTL_enc _ _ h3, readU32_enc _ _ h4,
      readU32_enc _ _ h5, readU32_enc _ _ h6, readPOINTL_enc _ _ h7,
      readU32_enc _ _ h8, readU32_enc _ _ h9, readU32_enc _ _ h10,
      readRECTL_enc _ _ h11, readU32_enc _ _ h12, andThen_ok, if_pos hA]
  · have hB : (4294967296 + nSize - offString) % 4294967296 < nChars := by
      rcases hbad with hb | hb
      · exact absurd hb hA
      · exact hb
    simp only [parseEMREXTTEXTOUTA, List.append_assoc, readU32_enc _ _ h1,
      readU32_enc _ _ h2, readRECTL_enc _ _ h3, readU32_enc _ _ h4,
      readU32_enc _ _ h5, readU32_enc _ _ h6, readPOINTL_enc _ _ h7,
      readU32_enc _ _ h8, readU32_enc _ _ h9, readU32_enc _ _ h10,
      readRECTL_enc _ _ h11, readU32_enc _ _ h12, andThen_ok, if_neg hA, if_pos hB]

/-- C8 counterexample: the record in `c8BadStream` declares one character at
string offset 80 inside a record of declared size 76 — an offset/length
combination reading outside the record — yet the 32-bit unsigned
subtraction wraps, the check passes, parsing succeeds and the parser
consumes four string bytes beyond the declared record size, contrary to the
claim that such a record is rejected. -/
theorem claim_C8_counterexample :
    parseEMREXTTEXTOUTA c8BadStream = .ok (c8BadRec, []) := rfl

/-- C8 witness: both rejection conditions exercised concretely — a non-zero
count with a zero offset, and a count exceeding the bytes remaining between
the offset and the declared size. -/
theorem claim_C8_witness :
    parseEMREXTTEXTOUTA (encU32 83 ++ encU32 76 ++ encRECTL ⟨0, 0, 0, 0⟩ ++ encU32 1
        ++ encU32 0 ++ encU32 0 ++ encPOINTL ⟨0, 0⟩ ++ encU32 1 ++ encU32 0
        ++ encU32 0 ++ encRECTL ⟨0, 0, 0, 0⟩ ++ encU32 0 ++ [])
      = .error "Invalid text specification"
  ∧ parseEMREXTTEXTOUTA (encU32 83 ++ encU32 76 ++ encRECTL ⟨0, 0, 0, 0⟩ ++ encU32 1
        ++ encU32 0 ++ encU32 0 ++ encPOINTL ⟨0, 0⟩ ++ encU32 100 ++ encU32 40
        ++ encU32 0 ++ encRECTL ⟨0, 0, 0, 0⟩ ++ encU32 0 ++ [])
      = .error "Invalid text specification" :=
  ⟨claim_C8_theorem 83 76 1 0 0 1 0 0 0 ⟨0, 0, 0, 0⟩ ⟨0, 0, 0, 0⟩ ⟨0, 0⟩ []
      (by decide) (by decide) (by decide) (by decide) (by decide) (by decide)
      (by decide) (by decide) (by decide) (by decide) (by decide) (by decide)
      (Or.inl (by decide)),
   claim_C8_theorem 83 76 1 0 0 100 40 0 0 ⟨0, 0, 0, 0⟩ ⟨0, 0, 0, 0⟩ ⟨0, 0⟩ []
      (by decide) (by decide) (by decide) (by decide) (by decide) (by decide)
      (by decide) (by decide) (by decide) (by decide) (by decide) (by decide)
      (Or.inr (by decide))⟩

theorem scanFreeAux_some (l : List Bool) (i j : Nat) (h : scanFreeAux l i = some j) :
    i ≤ j ∧ j - i < l.length ∧ l.get? (j - i) = some false
      ∧ ∀ k, k < j - i → l.get? k = some true := by
  induction l generalizing i with
  | nil => exact absurd h (by simp [scanFreeAux])
  | cons b rest ih =>
    cases b with
    | true =>
      rw [show scanFreeAux (true :: rest) i = scanFreeAux rest (i + 1) from rfl] at h
      obtain ⟨h1, h2, h3, h4⟩ := ih (i + 1) h
      refine ⟨by omega, by simp only [List.length_cons]; omega, ?_, ?_⟩
      · have hji : j - i = (j - (i + 1)) + 1 := by omega
        rw [hji]
        simpa using h3
      · intro k hk
        cases k with
        | zero => rfl
        | succ k2 =>
          have hk2 : k2 < j - (i + 1) := by omega
          simpa using h4 k2 hk2
    | false =>
      rw [show scanFreeAux (false :: rest) i = some i from rfl] at h
      have hij : i = j := by injection h
      subst hij
      refine ⟨Nat.le_refl i, by simp, by simp, ?_⟩
      intro k hk
      exact absurd hk (by omega)

theorem scanFreeAux_none (l : List Bool) (i : Nat) (h : scanFreeAux l i = none) :
    ∀ k, k < l.length → l.get? k = some true := by
  induction l generalizing i with
  | nil => intro k hk; exact absurd hk (by simp)
  | cons b rest ih =>
    cases b with
    | true =>
      rw [show scanFreeAux (true :: rest) i = scanFreeAux rest (i + 1) from rfl] at h
      intro k hk
      cases k with
      | zero => rfl
      | succ k2 =>
        have := ih (i + 1) h k2 (by simp only [List.length_cons] at hk; omega)
        simpa using this
    | false =>
      exact absurd h (by simp [scanFreeAux])

/-- C5 (confirmed): handle allocation is first-fit from index 1 over the bit
vector: the result is never 0, is at most any free slot index at or past 1,
is itself a free slot whenever it lies inside the old table, and the table
is extended exactly when no slot in `[1, size)` is free; the spec scenario —
allocate 1..5, free 3, allocate — returns 3. -/
theorem claim_C5_theorem :
    (∀ s : HandleState, 0 < s.handles.length →
      (nextHandle s).1 ≠ 0
      ∧ (∀ j, 1 ≤ j → j < s.handles.length → s.handles.get? j = some false →
          (nextHandle s).1 ≤ j)
      ∧ ((nextHandle s).2.handles.length = s.handles.length + 1
          ↔ ∀ j, 1 ≤ j → j < s.handles.length → s.handles.get? j = some true)
      ∧ ((nextHandle s).1 < s.handles.length →
          s.handles.get? (nextHandle s).1 = some false))
  ∧ (nextHandle demoHandleScenario).1 = 3 := by
  constructor
  · intro s hlen
    have hdropLen : (s.handles.drop 1).length = s.handles.length - 1 :=
      List.length_drop 1 s.handles
    have hdropGet : ∀ k, (s.handles.drop 1).get? k = s.handles.get? (1 + k) :=
      fun k => List.get?_drop s.handles 1 k
    cases hscan : scanFree s.handles 1 with
    | some i =>
      obtain ⟨h1, h2, h3, h4⟩ := scanFreeAux_some (s.handles.drop 1) 1 i hscan
      rw [hdropGet (i - 1), show 1 + (i - 1) = i from by omega] at h3
      simp only [nextHandle, hscan]
      refine ⟨by omega, ?_, ?_, ?_⟩
      · intro j hj1 hj2 hj3
        by_contra hcon
        push_neg at hcon
        have hjt := h4 (j - 1) (by omega)
        rw [hdropGet (j - 1), show 1 + (j - 1) = j from by omega] at hjt
        rw [hjt] at hj3
        exact absurd hj3 (by simp)
      · apply iff_of_false
        · rw [List.length_set]
          omega
        · intro hall
          have := hall i (by omega) (by omega)
          rw [h3] at this
          exact absurd this (by simp)
      · intro _
        exact h3
    | none =>
      have hall := scanFreeAux_none (s.handles.drop 1) 1 hscan
      simp only [nextHandle, hscan]
      refine ⟨by omega, ?_, ?_, ?_⟩
      · intro j hj1 hj2 hj3
        have hjt := hall (j - 1) (by omega)
        rw [hdropGet (j - 1), show 1 + (j - 1) = j from by omega] at hjt
        rw [hjt] at hj3
        exact absurd hj3 (by simp)
      · apply iff_of_true
        · simp
        · intro j hj1 hj2
          have hjt := hall (j - 1) (by omega)
          rw [hdropGet (j - 1), show 1 + (j - 1) = j from by omega] at hjt
          exact hjt
      · intro hlt
        exact absurd hlt (by omega)
  · decide

/-- C5 witness: at the concrete state reached by allocating handles 1..5
and freeing handle 3, the next allocation is nonzero and equals 3. -/
theorem claim_C5_witness :
    (nextHandle demoHandleScenario).1 ≠ 0 ∧ (nextHandle demoHandleScenario).1 = 3 :=
  ⟨(claim_C5_theorem.1 demoHandleScenario (by decide)).1, claim_C5_theorem.2⟩

/-- C10 (confirmed): `clearHandle` is total, never changes the size of the
handle table or the header handle count, is the identity on an out-of-range
handle and clears exactly the addressed bit otherwise; consequently, over
any sequence of allocate/free operations from a state whose handle count is
at most its table size, the handle count never decreases. -/
theorem claim_C10_theorem :
    (∀ (s : HandleState) (h : Nat),
      (clearHandle s h).handles.length = s.handles.length
      ∧ (clearHandle s h).nHandles = s.nHandles
      ∧ (s.handles.length ≤ h → clearHandle s h = s)
      ∧ (h < s.handles.length → (clearHandle s h).handles = s.handles.set h false))
  ∧ (∀ (s : HandleState) (ops : List DCOp), s.nHandles ≤ s.handles.length →
      s.nHandles ≤ (runOps s ops).nHandles) := by
  have hclear : ∀ (s : HandleState) (h : Nat),
      (clearHandle s h).handles.length = s.handles.length
      ∧ (clearHandle s h).nHandles = s.nHandles := by
    intro s h
    unfold clearHandle
    by_cases hlt : h < s.handles.length
    · rw [if_pos hlt]
      exact ⟨List.length_set s.handles h false, rfl⟩
    · rw [if_neg hlt]
      exact ⟨rfl, rfl⟩
  constructor
  · intro s h
    refine ⟨(hclear s h).1, (hclear s h).2, ?_, ?_⟩
    · intro hge
      unfold clearHandle
      rw [if_neg (by omega)]
    · intro hlt
      unfold clearHandle
      rw [if_pos hlt]
  · intro s ops
    induction ops generalizing s with
    | nil => intro h; exact Nat.le_refl _
    | cons op rest ih =>
      intro hinv
      cases op with
      | next =>
        have hstep : s.nHandles ≤ (nextHandle s).2.nHandles
            ∧ (nextHandle s).2.nHandles ≤ (nextHandle s).2.handles.length := by
          unfold nextHandle
          cases hscan : scanFree s.handles 1 with
          | some i =>
            simp only
            exact ⟨Nat.le_refl _, by rw [List.length_set]; exact hinv⟩
          | none =>
            simp only
            exact ⟨by omega, by simp⟩
        have := ih (nextHandle s).2 hstep.2
        calc s.nHandles ≤ (nextHandle s).2.nHandles := hstep.1
          _ ≤ (runOps (nextHandle s).2 rest).nHandles := this
      | clear h =>
        have hc := hclear s h
        have hinv2 : (clearHandle s h).nHandles ≤ (clearHandle s h).handles.length := by
          rw [hc.1, hc.2]
          exact hinv
        have := ih (clearHandle s h) hinv2
        calc s.nHandles = (clearHandle s h).nHandles := hc.2.symm
          _ ≤ (runOps (clearHandle s h) rest).nHandles := this

/-- C10 witness: clearing the out-of-range handle 99 on the demo state
leaves the handle count unchanged, and the handle count never decreases
over a concrete allocate/free/allocate sequence from the initial state. -/
theorem claim_C10_witness :
    (clearHandle demoHandleScenario 99).nHandles = demoHandleScenario.nHandles
  ∧ initHandleState.nHandles
      ≤ (runOps initHandleState [DCOp.next, DCOp.clear 1, DCOp.next]).nHandles :=
  ⟨(claim_C10_theorem.1 demoHandleScenario 99).2.1,
   claim_C10_theorem.2 initHandleState [DCOp.next, DCOp.clear 1, DCOp.next] (by decide)⟩

/-- C6 (corrected): both append paths push the record onto the ordered list,
add exactly the record's size to the header byte count and exactly one to
the record count; `appendHandle` is identical to `appendRecord` and in
particular does NOT increment the header handle count (that count is
maintained by `nextHandle` when it extends the handle table). -/
theorem claim_C6_theorem :
    ∀ (s : RecordList) (recSize : Nat),
      appendRecord s recSize
          = RecordList.mk (s.records ++ [recSize]) (s.nBytes + recSize)
              (s.nRecords + 1) s.nHandles
      ∧ appendHandle s recSize = appendRecord s recSize
      ∧ (appendHandle s recSize).nHandles = s.nHandles :=
  fun _ _ => ⟨rfl, rfl, rfl⟩

/-- C6 counterexample: appending through `appendHandle` leaves the handle
count unchanged — it does not become `nHandles + 1` as the claim states. -/
theorem claim_C6_counterexample :
    appendHandle (RecordList.mk [] 108 1 0) 24 = RecordList.mk [24] 132 2 0
  ∧ decide ((appendHandle (RecordList.mk [] 108 1 0) 24).nHandles
      = (RecordList.mk [] 108 1 0).nHandles + 1) = false := by
  refine ⟨by decide, by decide⟩

/-! Helper facts for the short-transfer behaviour of the stream primitives. -/

theorem readU8_short (s : List Nat) (h : s.length < 1) :
    readU8 s = .error streamReadErr := by
  cases s with
  | nil => rfl
  | cons a t => exact absurd h (by simp)

theorem readU16_short (s : List Nat) (h : s.length < 2) :
    readU16 s = .error streamReadErr := by
  match s with
  | [] => rfl
  | [a] => rfl
  | a :: b :: t => exact absurd h (by simp)

theorem readU32_short (s : List Nat) (h : s.length < 4) :
    readU32 s = .error streamReadErr := by
  match s with
  | [] => rfl
  | [a] => rfl
  | [a, b] => rfl
  | [a, b, c] => rfl
  | a :: b :: c :: d :: t => exact absurd h (by simp)

theorem readByteList_short (n : Nat) (s : List Nat) (h : s.length < n) :
    readByteList n s = .error streamReadErr := by
  unfold readByteList
  rw [if_neg (by omega)]

theorem readU16List_short (n : Nat) (s : List Nat) (h : s.length < 2 * n) :
    readU16List n s = .error streamReadErr := by
  induction n generalizing s with
  | zero => exact absurd h (by omega)
  | succ n ih =>
    match s with
    | [] => rfl
    | [a] => rfl
    | a :: b :: t =>
      rw [show readU16List (n + 1) (a :: b :: t)
          = andThen (readU16 (a :: b :: t)) (fun w s1 =>
              andThen (readU16List n s1) fun ws s2 => .ok (w :: ws, s2)) from rfl]
      rw [show readU16 (a :: b :: t) = .ok (a + 256 * b, t) from rfl, andThen_ok]
      rw [ih t (by simp only [List.length_cons] at h; omega)]
      rfl

theorem writeByteStream_short (cap : Nat) (bytes : List Nat) (h : cap < bytes.length) :
    writeByteStream cap bytes = .error streamWriteErr := by
  unfold writeByteStream
  rw [if_neg (by omega)]

/-- C9 (confirmed): a short transfer — fewer bytes available (reads) or
writable (writes) than the primitive or array transfer requires — is the
fatal stream error of the `DATASTREAM` fread/fwrite wrappers: every
primitive read, the array reads, and the capacity-bounded write model all
fail with it, and the error aborts the enclosing record-parsing operation
(no retry, no partial record). -/
theorem claim_C9_theorem :
    (∀ s : List Nat, s.length < 1 → readU8 s = .error streamReadErr)
  ∧ (∀ s : List Nat, s.length < 2 → readU16 s = .error streamReadErr)
  ∧ (∀ s : List Nat, s.length < 4 → readU32 s = .error streamReadErr)
  ∧ (∀ (n : Nat) (s : List Nat), s.length < n → readByteList n s = .error streamReadErr)
  ∧ (∀ (n : Nat) (s : List Nat), s.length < 2 * n →
      readU16List n s = .error streamReadErr)
  ∧ (∀ (cap : Nat) (bytes : List Nat), cap < bytes.length →
      writeByteStream cap bytes = .error streamWriteErr)
  ∧ (∀ s : List Nat, s.length < 4 → parseEMRPOLYPOLYGON s = .error streamReadErr) := by
  refine ⟨readU8_short, readU16_short, readU32_short, readByteList_short,
    readU16List_short, writeByteStream_short, ?_⟩
  intro s h
  unfold parseEMRPOLYPOLYGON
  rw [readU32_short s h, andThen_error]

/-- C9 witness: concrete short transfers: a two-byte stream fails a DWORD
read, a two-byte sink fails a three-byte write, and a one-byte stream
aborts the whole poly-polygon record parse. -/
theorem claim_C9_witness :
    readU32 [0, 1] = .error streamReadErr
  ∧ writeByteStream 2 [1, 2, 3] = .error streamWriteErr
  ∧ parseEMRPOLYPOLYGON [5] = .error streamReadErr :=
  ⟨claim_C9_theorem.2.2.1 [0, 1] (by decide),
   claim_C9_theorem.2.2.2.2.2.1 2 [1, 2, 3] (by decide),
   claim_C9_theorem.2.2.2.2.2.2 [5] (by decide)⟩

theorem mergeY_preserves_x (dcx : DCState) (d : POINTL) :
    (mergeY dcx d).minDevicePoint.x = dcx.minDevicePoint.x
    ∧ (mergeY dcx d).maxDevicePoint.x = dcx.maxDevicePoint.x
    ∧ (mergeY dcx d).rclBounds.left = dcx.rclBounds.left
    ∧ (mergeY dcx d).rclBounds.right = dcx.rclBounds.right
    ∧ (mergeY dcx d).rclFrame.left = dcx.rclFrame.left
    ∧ (mergeY dcx d).rclFrame.right = dcx.rclFrame.right := by
  refine ⟨?_, ?_, ?_, ?_, ?_, ?_⟩ <;>
  · unfold mergeY
    split
    · dsimp only
      split <;> rfl
    · split
      · dsimp only
        split <;> rfl
      · rfl

theorem mergeX_preserves_y (dc0 : DCState) (d : POINTL) :
    (mergeX dc0 d).updateFrame = dc0.updateFrame
    ∧ (mergeX dc0 d).minDevicePoint.y = dc0.minDevicePoint.y
    ∧ (mergeX dc0 d).maxDevicePoint.y = dc0.maxDevicePoint.y
    ∧ (mergeX dc0 d).szlMillimeters = dc0.szlMillimeters
    ∧ (mergeX dc0 d).szlDevice = dc0.szlDevice := by
  refine ⟨?_, ?_, ?_, ?_, ?_⟩ <;>
  · unfold mergeX
    split
    · dsimp only
      split <;> rfl
    · split
      · dsimp only
        split <;> rfl
      · rfl

theorem mergeX_min (dc0 : DCState) (d : POINTL) (hu : dc0.updateFrame = true)
    (hx : d.x < dc0.minDevicePoint.x) :
    (mergeX dc0 d).minDevicePoint.x = d.x
    ∧ (mergeX dc0 d).rclBounds.left = d.x - 10
    ∧ (mergeX dc0 d).rclFrame.left
        = frameFloor (d.x - 10) dc0.szlMillimeters.cx dc0.szlDevice.cx := by
  unfold mergeX
  rw [if_pos hx, if_pos hu]
  exact ⟨rfl, rfl, rfl⟩

theorem mergeX_max (dc0 : DCState) (d : POINTL) (hu : dc0.updateFrame = true)
    (hx0 : ¬ d.x < dc0.minDevicePoint.x) (hx : dc0.maxDevicePoint.x < d.x) :
    (mergeX dc0 d).maxDevicePoint.x = d.x
    ∧ (mergeX dc0 d).rclBounds.right = d.x + 10
    ∧ (mergeX dc0 d).rclFrame.right
        = frameCeil (d.x + 10) dc0.szlMillimeters.cx dc0.szlDevice.cx := by
  unfold mergeX
  rw [if_neg hx0, if_pos hx, if_pos hu]
  exact ⟨rfl, rfl, rfl⟩

theorem mergeY_min (dcx : DCState) (d : POINTL) (hu : dcx.updateFrame = true)
    (hy : d.y < dcx.minDevicePoint.y) :
    (mergeY dcx d).minDevicePoint.y = d.y
    ∧ (mergeY dcx d).rclBounds.top = d.y - 10
    ∧ (mergeY dcx d).rclFrame.top
        = frameFloor (d.y - 10) dcx.szlMillimeters.cy dcx.szlDevice.cy := by
  unfold mergeY
  rw [if_pos hy, if_pos hu]
  exact ⟨rfl, rfl, rfl⟩

theorem mergeY_max (dcx : DCState) (d : POINTL) (hu : dcx.updateFrame = true)
    (hy0 : ¬ d.y < dcx.minDevicePoint.y) (hy : dcx.maxDevicePoint.y < d.y) :
    (mergeY dcx d).maxDevicePoint.y = d.y
    ∧ (mergeY dcx d).rclBounds.bottom = d.y + 10
    ∧ (mergeY dcx d).rclFrame.bottom
        = frameCeil (d.y + 10) dcx.szlMillimeters.cy dcx.szlDevice.cy := by
  unfold mergeY
  rw [if_neg hy0, if_pos hy, if_pos hu]
  exact ⟨rfl, rfl, rfl⟩

/-- C4 (corrected): the device mapping guards only the WINDOW extents
(values of zero or negative treated as 1); the viewport extents are applied
as-is, so the source formula agrees with the spec formula exactly when the
viewport extents are positive. The spec examples hold: with window extent
(2,2), viewport extent (100,100) and both origins (0,0), logical (1,1) maps
to device (50,50) and (-1,-1) to (-50,-50). When no fixed frame was
supplied, a merged device point beyond the current min/max expands the
bounds edge to that coordinate plus or minus the 10-unit margin and
recomputes the frame edge as bounds * millimeters * 100 / device_size,
floored on the left/top and ceiled on the right/bottom. -/
theorem claim_C4_theorem :
    (∀ (dc : DCState) (p : POINTL), 0 < dc.viewportExt.cx → 0 < dc.viewportExt.cy →
      devicePoint dc p = specDevicePoint dc p)
  ∧ (devicePoint demoMergeDC ⟨1, 1⟩ = ⟨50, 50⟩
      ∧ devicePoint demoMergeDC ⟨-1, -1⟩ = ⟨-50, -50⟩)
  ∧ (∀ (dc : DCState) (p : POINTL), dc.updateFrame = true →
      (devicePoint dc p).x < dc.minDevicePoint.x →
      (mergePoint dc p).minDevicePoint.x = (devicePoint dc p).x
      ∧ (mergePoint dc p).rclBounds.left = (devicePoint dc p).x - 10
      ∧ (mergePoint dc p).rclFrame.left
          = frameFloor ((devicePoint dc p).x - 10) dc.szlMillimeters.cx dc.szlDevice.cx)
  ∧ (∀ (dc : DCState) (p : POINTL), dc.updateFrame = true →
      ¬ (devicePoint dc p).x < dc.minDevicePoint.x →
      dc.maxDevicePoint.x < (devicePoint dc p).x →
      (mergePoint dc p).maxDevicePoint.x = (devicePoint dc p).x
      ∧ (mergePoint dc p).rclBounds.right = (devicePoint dc p).x + 10
      ∧ (mergePoint dc p).rclFrame.right
          = frameCeil ((devicePoint dc p).x + 10) dc.szlMillimeters.cx dc.szlDevice.cx)
  ∧ (∀ (dc : DCState) (p : POINTL), dc.updateFrame = true →
      (devicePoint dc p).y < dc.minDevicePoint.y →
      (mergePoint dc p).minDevicePoint.y = (devicePoint dc p).y
      ∧ (mergePoint dc p).rclBounds.top = (devicePoint dc p).y - 10
      ∧ (mergePoint dc p).rclFrame.top
          = frameFloor ((devicePoint dc p).y - 10) dc.szlMillimeters.cy dc.szlDevice.cy)
  ∧ (∀ (dc : DCState) (p : POINTL), dc.updateFrame = true →
      ¬ (devicePoint dc p).y < dc.minDevicePoint.y →
      dc.maxDevicePoint.y < (devicePoint dc p).y →
      (mergePoint dc p).maxDevicePoint.y = (devicePoint dc p).y
      ∧ (mergePoint dc p).rclBounds.bottom = (devicePoint dc p).y + 10
      ∧ (mergePoint dc p).rclFrame.bottom
          = frameCeil ((devicePoint dc p).y + 10) dc.szlMillimeters.cy dc.szlDevice.cy) := by
  refine ⟨?_, ⟨by decide, by decide⟩, ?_, ?_, ?_, ?_⟩
  · intro dc p hvx hvy
    have g1 : guardExt dc.viewportExt.cx = dc.viewportExt.cx := by
      unfold guardExt
      rw [if_neg (by omega)]
    have g2 : guardExt dc.viewportExt.cy = dc.viewportExt.cy := by
      unfold guardExt
      rw [if_neg (by omega)]
    unfold devicePoint specDevicePoint
    rw [g1, g2]
  · intro dc p hu hx
    have hm := mergeX_min dc (devicePoint dc p) hu hx
    have hp := mergeY_preserves_x (mergeX dc (devicePoint dc p)) (devicePoint dc p)
    unfold mergePoint
    exact ⟨hp.1.trans hm.1, hp.2.2.1.trans hm.2.1, hp.2.2.2.2.1.trans hm.2.2⟩
  · intro dc p hu hx0 hx
    have hm := mergeX_max dc (devicePoint dc p) hu hx0 hx
    have hp := mergeY_preserves_x (mergeX dc (devicePoint dc p)) (devicePoint dc p)
    unfold mergePoint
    exact ⟨hp.2.1.trans hm.1, hp.2.2.2.1.trans hm.2.1, hp.2.2.2.2.2.trans hm.2.2⟩
  · intro dc p hu hy
    have hq := mergeX_preserves_y dc (devicePoint dc p)
    have hm := mergeY_min (mergeX dc (devicePoint dc p)) (devicePoint dc p)
      (hq.1.trans hu) (by rw [hq.2.1]; exact hy)
    unfold mergePoint
    rw [hq.2.2.2.1, hq.2.2.2.2] at hm
    exact hm
  · intro dc p hu hy0 hy
    have hq := mergeX_preserves_y dc (devicePoint dc p)
    have hm := mergeY_max (mergeX dc (devicePoint dc p)) (devicePoint dc p)
      (hq.1.trans hu) (by rw [hq.2.1]; exact hy0) (by rw [hq.2.2.1]; exact hy)
    unfold mergePoint
    rw [hq.2.2.2.1, hq.2.2.2.2] at hm
    exact hm

/-- C4 counterexample: with window extent (1,1) and viewport extent (0,0),
the source multiplies by the raw viewport extent and maps logical (5,5) to
device (0,0), while the claim formula (viewport extent 0 treated as 1)
yields (5,5): the claimed mapping is false for zero or negative viewport
extents. -/
theorem claim_C4_counterexample :
    devicePoint zeroViewportDC ⟨5, 5⟩ = POINTL.mk 0 0
  ∧ specDevicePoint zeroViewportDC ⟨5, 5⟩ = POINTL.mk 5 5
  ∧ decide (devicePoint zeroViewportDC ⟨5, 5⟩
      = specDevicePoint zeroViewportDC ⟨5, 5⟩) = false := by
  refine ⟨by decide, by decide, by decide⟩

/-- C4 witness: the agreement with the spec formula at the demo state, and
the bounds/frame expansion at a concrete merged point beyond the running
maximum. -/
theorem claim_C4_witness :
    devicePoint demoMergeDC ⟨1, 1⟩ = specDevicePoint demoMergeDC ⟨1, 1⟩
  ∧ ((mergePoint demoMergeDC ⟨3, 3⟩).maxDevicePoint.x
        = (devicePoint demoMergeDC ⟨3, 3⟩).x
      ∧ (mergePoint demoMergeDC ⟨3, 3⟩).rclBounds.right
        = (devicePoint demoMergeDC ⟨3, 3⟩).x + 10
      ∧ (mergePoint demoMergeDC ⟨3, 3⟩).rclFrame.right
        = frameCeil ((devicePoint demoMergeDC ⟨3, 3⟩).x + 10)
            demoMergeDC.szlMillimeters.cx demoMergeDC.szlDevice.cx) :=
  ⟨claim_C4_theorem.1 demoMergeDC ⟨1, 1⟩ (by decide) (by decide),
   claim_C4_theorem.2.2.2.1 demoMergeDC ⟨3, 3⟩ (by decide) (by decide) (by decide)⟩

end LibEMF
